import Mathlib

/-!
# com.webos.service.audiooutput: connection registry and volume control

A shallow embedding of `src/audio/audioservice.cpp`, `src/audio/volumeservice.cpp`
and `src/audio/amixercontroller.cpp`, followed by theorems about it.

Conventions of the embedding:

* A Luna handler is embedded from the point where the payload has been parsed:
  its arguments are the parsed request fields, its result is the response posted
  to the client together with the service state after the handler returned.
* The HAL client pointer `umi` is an `Option umiClient`; `none` is `nullptr`.
* A HAL client is a deterministic oracle over the history of HAL calls.  The
  field `halLog` of a service state is ghost state: the calls issued so far,
  oldest first.  It is only appended to, at the places where the source calls
  the HAL.
* A pointer into `mConnections` or `mOutputs` is the index of the element.
-/

namespace AudioOutputService

/-! ## The HAL boundary (`umiclient.h`, an external library) -/

/-- Result code of a HAL call.  The sources name `UMI_ERROR_NONE` and
`UMI_ERROR_FAIL`; `OTHER` stands for every further error code. -/
inductive UMI_ERROR where
  | NONE
  | FAIL
  | OTHER (code : Nat)
  deriving DecidableEq, Repr

/-- HAL resource handles used by the sources. -/
inductive UMI_AUDIO_RESOURCE_T where
  | MIXER0
  | NO_CONNECTION
  deriving DecidableEq, Repr

/-- HAL sound outputs used by the sources. -/
inductive UMI_AUDIO_SNDOUT_T where
  | AMIXER
  | NO_OUTPUT
  deriving DecidableEq, Repr

/-- One call into the HAL, with its arguments. -/
inductive HalCall where
  | connectInput (id : UMI_AUDIO_RESOURCE_T)
  | disconnectInput (id : UMI_AUDIO_RESOURCE_T)
  | setMute (id : UMI_AUDIO_RESOURCE_T) (muted : Bool)
  | setSoundOutput (out : UMI_AUDIO_SNDOUT_T)
  | setOutputVolume (out : UMI_AUDIO_SNDOUT_T) (level : Int)
  | setOutputMute (out : UMI_AUDIO_SNDOUT_T) (muted : Bool)
  | getDefaultVolume
  deriving DecidableEq, Repr

/-- A HAL client: what it answers to a call, given the calls issued before it,
and the default volume it reports. -/
structure umiClient where
  reply : List HalCall → HalCall → UMI_ERROR
  defaultVolume : List HalCall → Int

/-- Issue one call: the answer and the extended call history. -/
def umiClient.call (u : umiClient) (log : List HalCall) (c : HalCall) :
    UMI_ERROR × List HalCall :=
  (u.reply log c, log ++ [c])

/-- The HAL call `c`, issued after the history `log` through the pointer `umi`,
does not succeed: the pointer is null or the answer is not `UMI_ERROR_NONE`. -/
def halFails (umi : Option umiClient) (log : List HalCall) (c : HalCall) : Prop :=
  ∀ u, umi = some u → u.reply log c ≠ UMI_ERROR.NONE

/-- The HAL call `c`, issued after `log` through `umi`, succeeds. -/
def halSucceeds (umi : Option umiClient) (log : List HalCall) (c : HalCall) : Prop :=
  ∃ u, umi = some u ∧ u.reply log c = UMI_ERROR.NONE

/-! ## Responses -/

/-- The error texts of the service (their strings are declared outside the
embedded sources). -/
inductive ErrorText where
  | errorSchemavalidation
  | errorInvalidParameters
  | errorConnectionNotPossible
  | errorAudioNotConnected
  | errorHALError
  | errorNotImplemented
  | errorVolumeLimit
  | errorVolumeMaxMin
  | errorInvalidVolumeControl
  deriving DecidableEq, Repr

/-- The error codes of the service (their numbers are declared outside the
embedded sources). -/
inductive ErrorCode where
  | API_ERROR_SCHEMA_VALIDATION
  | API_ERROR_INVALID_PARAMETERS
  | API_ERROR_CONNECTION_NOT_POSSIBLE
  | API_ERROR_AUDIO_NOT_CONNECTED
  | API_ERROR_HAL_ERROR
  | API_ERROR_NOT_IMPLEMENTED
  | API_ERROR_VOLUME_LIMIT
  | API_ERROR_INVALID_VOLUME_CONTROL
  deriving DecidableEq, Repr

/-- A JSON value put into a response object. -/
inductive JValue where
  | bool (b : Bool)
  | str (s : String)
  | num (n : Int)
  deriving DecidableEq, Repr

/-- The response posted to the client: `error` is `returnValue: false` with
`errorText` and `errorCode`; `ok` is the list of fields put into the object. -/
inductive Response where
  | error (errorText : ErrorText) (errorCode : ErrorCode)
  | ok (fields : List (String × JValue))
  deriving DecidableEq, Repr

/-- The response carries `returnValue: true`. -/
def Response.isSuccess : Response → Bool
  | Response.ok _ => true
  | Response.error _ _ => false

/-- The HAL-error response built by the handlers. -/
def Response.halError : Response :=
  Response.error ErrorText.errorHALError ErrorCode.API_ERROR_HAL_ERROR

/-! ## `audioservice.h` / `audioservice.cpp` -/

/-- The class `AudioConnection`, with its default member initialisers. -/
structure AudioConnection where
  source : String := ""
  sink : String := ""
  outputMode : String := ""
  muted : Bool := false
  audioResourceId : UMI_AUDIO_RESOURCE_T := UMI_AUDIO_RESOURCE_T.NO_CONNECTION
  deriving DecidableEq, Repr

/-- The state of an `AudioService`: the vector `mConnections`, and the ghost
history of HAL calls. -/
structure AudioService where
  mConnections : List AudioConnection
  halLog : List HalCall
  deriving DecidableEq, Repr

/-- Source function `AudioService::isValidSource`. -/
def isValidSource (source : String) : Bool :=
  if "AMIXER" = source then true else false

/-- Source function `AudioService::isValidSink`. -/
def isValidSink (sink : String) : Bool :=
  if "ALSA" = sink then true else false

/-- Source function `AudioService::getResourceId`. -/
def getResourceId (source sink : String) : UMI_AUDIO_RESOURCE_T :=
  if "AMIXER" = source ∧ "ALSA" = sink then UMI_AUDIO_RESOURCE_T.MIXER0
  else UMI_AUDIO_RESOURCE_T.NO_CONNECTION

/-- Source function `AudioService::getSoundOutResourceId`. -/
def getSoundOutResourceId (soundOut : String) : UMI_AUDIO_SNDOUT_T :=
  if "alsa" = soundOut then UMI_AUDIO_SNDOUT_T.AMIXER else UMI_AUDIO_SNDOUT_T.NO_OUTPUT

/-- Source function `AudioService::findAudioConnection`: the position of the first connection
with this source and sink, `none` for `nullptr`. -/
def findAudioConnection : List AudioConnection → String → String → Option Nat
  | [], _, _ => none
  | connection :: rest, source, sink =>
    if connection.source = source ∧ connection.sink = sink then some 0
    else (findAudioConnection rest source sink).map (· + 1)

/-- Source function `AudioService::removeAudioConnection`: erase the first connection with this
source and sink, then stop. -/
def removeAudioConnection : List AudioConnection → String → String → List AudioConnection
  | [], _, _ => []
  | connection :: rest, source, sink =>
    if connection.source = source ∧ connection.sink = sink then rest
    else connection :: removeAudioConnection rest source sink

/-- Dereference of a pointer into `mConnections`. -/
def connectionAt (connections : List AudioConnection) (i : Nat) : AudioConnection :=
  connections.getD i {}

/-- Source function `AudioService::doDisconnectAudio`. -/
def doDisconnectAudio (umi : Option umiClient) (log : List HalCall)
    (connection : AudioConnection) : UMI_ERROR × List HalCall :=
  match umi with
  | some u => u.call log (HalCall.disconnectInput connection.audioResourceId)
  | none => (UMI_ERROR.FAIL, log)

/-- Source function `AudioService::doMuteAudio`: the returned flag, the connection afterwards,
and the call history afterwards. -/
def doMuteAudio (umi : Option umiClient) (log : List HalCall)
    (connection : AudioConnection) (muted : Bool) :
    Bool × AudioConnection × List HalCall :=
  if connection.muted = muted then (true, connection, log)
  else
    match umi with
    | none => (false, connection, log)
    | some u =>
      if (u.call log (HalCall.setMute connection.audioResourceId muted)).1 ≠ UMI_ERROR.NONE then
        (false, connection, (u.call log (HalCall.setMute connection.audioResourceId muted)).2)
      else
        (true, { connection with muted := muted },
          (u.call log (HalCall.setMute connection.audioResourceId muted)).2)

/-- The connections after the lookup-or-emplace step of `AudioService::connect`. -/
def connectEntry (connections : List AudioConnection) (sourceName sinkName : String)
    (audioResourceId : UMI_AUDIO_RESOURCE_T) : List AudioConnection × Nat :=
  match findAudioConnection connections sourceName sinkName with
  | some i => (connections, i)
  | none =>
    (connections ++
        [{ source := sourceName, sink := sinkName, audioResourceId := audioResourceId }],
      connections.length)

/-- Source function `AudioService::connect`, after the payload is parsed. -/
def AudioService.connect (umi : Option umiClient) (s : AudioService)
    (sourceName sinkName : String) : Response × AudioService :=
  if !isValidSource sourceName || !isValidSink sinkName then
    (Response.error ErrorText.errorInvalidParameters ErrorCode.API_ERROR_INVALID_PARAMETERS, s)
  else if UMI_AUDIO_RESOURCE_T.NO_CONNECTION = getResourceId sourceName sinkName then
    (Response.error ErrorText.errorConnectionNotPossible
      ErrorCode.API_ERROR_CONNECTION_NOT_POSSIBLE, s)
  else
    let entry := connectEntry s.mConnections sourceName sinkName
      (getResourceId sourceName sinkName)
    let connection := connectionAt entry.1 entry.2
    let success : UMI_ERROR × List HalCall :=
      match umi with
      | some u => u.call s.halLog (HalCall.connectInput connection.audioResourceId)
      | none => (UMI_ERROR.FAIL, s.halLog)
    if success.1 = UMI_ERROR.NONE then
      (Response.ok [("returnValue", JValue.bool true), ("source", JValue.str sourceName),
          ("sink", JValue.str sinkName)],
        { mConnections := entry.1, halLog := success.2 })
    else
      (Response.halError,
        { mConnections := removeAudioConnection entry.1 sourceName sinkName,
          halLog := success.2 })

/-- Source function `AudioService::disconnect`, after the payload is parsed. -/
def AudioService.disconnect (umi : Option umiClient) (s : AudioService)
    (sourceName sinkName : String) : Response × AudioService :=
  match findAudioConnection s.mConnections sourceName sinkName with
  | none =>
    (Response.error ErrorText.errorAudioNotConnected ErrorCode.API_ERROR_AUDIO_NOT_CONNECTED, s)
  | some i =>
    let success := doDisconnectAudio umi s.halLog (connectionAt s.mConnections i)
    let connections := removeAudioConnection s.mConnections sourceName sinkName
    if success.1 = UMI_ERROR.NONE then
      (Response.ok [("returnValue", JValue.bool true), ("source", JValue.str sourceName),
          ("sink", JValue.str sinkName)],
        { mConnections := connections, halLog := success.2 })
    else
      (Response.halError, { mConnections := connections, halLog := success.2 })

/-- Source function `AudioService::setSoundOut`, after the payload is parsed. -/
def AudioService.setSoundOut (umi : Option umiClient) (s : AudioService)
    (soundOut : String) : Response × AudioService :=
  if UMI_AUDIO_SNDOUT_T.NO_OUTPUT = getSoundOutResourceId soundOut then
    (Response.error ErrorText.errorNotImplemented ErrorCode.API_ERROR_NOT_IMPLEMENTED, s)
  else
    match umi with
    | none => (Response.halError, s)
    | some u =>
      if (u.call s.halLog (HalCall.setSoundOutput (getSoundOutResourceId soundOut))).1
          = UMI_ERROR.NONE then
        (Response.ok [("returnValue", JValue.bool true), ("soundOut", JValue.str soundOut)],
          { mConnections := s.mConnections.map (fun c => { c with outputMode := soundOut }),
            halLog := (u.call s.halLog
              (HalCall.setSoundOutput (getSoundOutResourceId soundOut))).2 })
      else
        (Response.halError,
          { s with halLog := (u.call s.halLog
              (HalCall.setSoundOutput (getSoundOutResourceId soundOut))).2 })

/-- Source function `AudioService::mute`, after the payload is parsed. -/
def AudioService.mute (umi : Option umiClient) (s : AudioService)
    (sourceName sinkName : String) (muted : Bool) : Response × AudioService :=
  match findAudioConnection s.mConnections sourceName sinkName with
  | none =>
    (Response.error ErrorText.errorAudioNotConnected ErrorCode.API_ERROR_AUDIO_NOT_CONNECTED, s)
  | some i =>
    let done := doMuteAudio umi s.halLog (connectionAt s.mConnections i) muted
    if !done.1 then
      (Response.halError,
        { mConnections := s.mConnections.set i done.2.1, halLog := done.2.2 })
    else
      (Response.ok [("returnValue", JValue.bool true), ("sink", JValue.str sinkName),
          ("source", JValue.str sourceName), ("mute", JValue.bool muted)],
        { mConnections := s.mConnections.set i done.2.1, halLog := done.2.2 })

/-- Source function `AudioService::buildAudioStatus`. -/
def AudioService.buildAudioStatus (c : AudioConnection) : List (String × JValue) :=
  [("sink", JValue.str c.sink), ("source", JValue.str c.source),
   ("outputMode", JValue.str (if c.outputMode.isEmpty then "null" else c.outputMode)),
   ("muted", JValue.bool c.muted)]

/-- Source function `AudioService::buildStatus`: the flag put under `returnValue` and the array
put under `audio`. -/
def AudioService.buildStatus (s : AudioService) : Bool × List (List (String × JValue)) :=
  (true, s.mConnections.map AudioService.buildAudioStatus)

/-! ## `volumeservice.h` / `volumeservice.cpp` / `amixercontroller.cpp` -/

/-- Modelled from the spec: the state of the base class `IVolumeController`
(`ivolumecontroller.h` is not among the embedded sources): the cached volume
level and the cached mute flag behind `getVolume` and `getMute`. -/
structure IVolumeController where
  mVolume : Int
  mMuted : Bool
  deriving DecidableEq, Repr

/-- Modelled from the spec: `IVolumeController::getVolume` (missing with
`ivolumecontroller.h`), the cached level. -/
def IVolumeController.getVolume (c : IVolumeController) : Int := c.mVolume

/-- Modelled from the spec: `IVolumeController::getMute` (missing with
`ivolumecontroller.h`), the cached flag. -/
def IVolumeController.getMute (c : IVolumeController) : Bool := c.mMuted

/-- Modelled from the spec: `IVolumeController::init(mute, volume)` (missing with
`ivolumecontroller.h`): the output starts with the supplied volume and mute
state. -/
def IVolumeController.init (_c : IVolumeController) (mute : Bool) (volume : Int) :
    IVolumeController :=
  { mVolume := volume, mMuted := mute }

/-- Source function `AmixerController::onVolumeChanged`: push the cached level to the HAL. -/
def AmixerController.onVolumeChanged (umi : Option umiClient) (log : List HalCall)
    (c : IVolumeController) : Bool × List HalCall :=
  match umi with
  | none => (false, log)
  | some u =>
    if (u.call log (HalCall.setOutputVolume UMI_AUDIO_SNDOUT_T.AMIXER c.getVolume)).1
        ≠ UMI_ERROR.NONE then
      (false, (u.call log (HalCall.setOutputVolume UMI_AUDIO_SNDOUT_T.AMIXER c.getVolume)).2)
    else
      (true, (u.call log (HalCall.setOutputVolume UMI_AUDIO_SNDOUT_T.AMIXER c.getVolume)).2)

/-- Source function `AmixerController::onMuteChanged`: push the cached mute flag to the HAL. -/
def AmixerController.onMuteChanged (umi : Option umiClient) (log : List HalCall)
    (c : IVolumeController) : Bool × List HalCall :=
  match umi with
  | none => (false, log)
  | some u =>
    if (u.call log (HalCall.setOutputMute UMI_AUDIO_SNDOUT_T.AMIXER c.getMute)).1
        ≠ UMI_ERROR.NONE then
      (false, (u.call log (HalCall.setOutputMute UMI_AUDIO_SNDOUT_T.AMIXER c.getMute)).2)
    else
      (true, (u.call log (HalCall.setOutputMute UMI_AUDIO_SNDOUT_T.AMIXER c.getMute)).2)

/-- Modelled from the spec: `IVolumeController::setVolume(level)` (missing with
`ivolumecontroller.h`): it returns false on HAL failure and the cached level
changes only on success.  The HAL is reached through `onVolumeChanged`, which
reads the level to push from the cache. -/
def IVolumeController.setVolume (umi : Option umiClient) (log : List HalCall)
    (c : IVolumeController) (level : Int) : Bool × IVolumeController × List HalCall :=
  if (AmixerController.onVolumeChanged umi log { c with mVolume := level }).1 then
    (true, { c with mVolume := level },
      (AmixerController.onVolumeChanged umi log { c with mVolume := level }).2)
  else
    (false, c, (AmixerController.onVolumeChanged umi log { c with mVolume := level }).2)

/-- Modelled from the spec: `IVolumeController::setMute(flag)` (missing with
`ivolumecontroller.h`): it returns false on HAL failure and the cached flag
changes only on success.  The HAL is reached through `onMuteChanged`. -/
def IVolumeController.setMute (umi : Option umiClient) (log : List HalCall)
    (c : IVolumeController) (flag : Bool) : Bool × IVolumeController × List HalCall :=
  if (AmixerController.onMuteChanged umi log { c with mMuted := flag }).1 then
    (true, { c with mMuted := flag },
      (AmixerController.onMuteChanged umi log { c with mMuted := flag }).2)
  else
    (false, c, (AmixerController.onMuteChanged umi log { c with mMuted := flag }).2)

/-- A pointer to a volume controller owned by the `VolumeService`; the only one
is `&mAmixer`. -/
inductive ControllerRef where
  | mAmixer
  deriving DecidableEq, Repr

/-- The struct `AudioOutput`. -/
structure AudioOutput where
  name : String
  userMute : Bool
  volumeController : ControllerRef
  deriving DecidableEq, Repr

/-- A call of a handler into a volume controller (ghost record). -/
inductive ControllerCall where
  | setVolume (target : ControllerRef) (level : Int)
  | setMute (target : ControllerRef) (flag : Bool)
  deriving DecidableEq, Repr

/-- The state of a `VolumeService`: the member `mAmixer`, the map `mOutputs` as
an association list with distinct keys, and two ghost histories: the HAL calls
and the `setVolume`/`setMute` calls made on controllers. -/
structure VolumeService where
  mAmixer : IVolumeController
  mOutputs : List (String × AudioOutput)
  halLog : List HalCall
  controllerLog : List ControllerCall
  deriving DecidableEq, Repr

/-- Dereference of a controller pointer. -/
def VolumeService.controller (s : VolumeService) : ControllerRef → IVolumeController
  | ControllerRef.mAmixer => s.mAmixer

/-- The call `speaker->volumeController->setVolume(level)` as issued by a handler: the
returned flag and the service state afterwards. -/
def VolumeService.controllerSetVolume (umi : Option umiClient) (s : VolumeService)
    (target : ControllerRef) (level : Int) : Bool × VolumeService :=
  match target with
  | ControllerRef.mAmixer =>
    ((IVolumeController.setVolume umi s.halLog s.mAmixer level).1,
      { s with
        mAmixer := (IVolumeController.setVolume umi s.halLog s.mAmixer level).2.1
        halLog := (IVolumeController.setVolume umi s.halLog s.mAmixer level).2.2
        controllerLog := s.controllerLog ++ [ControllerCall.setVolume target level] })

/-- The call `speaker->volumeController->setMute(flag)` as issued by a handler: the
returned flag and the service state afterwards. -/
def VolumeService.controllerSetMute (umi : Option umiClient) (s : VolumeService)
    (target : ControllerRef) (flag : Bool) : Bool × VolumeService :=
  match target with
  | ControllerRef.mAmixer =>
    ((IVolumeController.setMute umi s.halLog s.mAmixer flag).1,
      { s with
        mAmixer := (IVolumeController.setMute umi s.halLog s.mAmixer flag).2.1
        halLog := (IVolumeController.setMute umi s.halLog s.mAmixer flag).2.2
        controllerLog := s.controllerLog ++ [ControllerCall.setMute target flag] })

/-- Source function `VolumeService::findOutput`: the position of the entry with this key,
`none` for `nullptr`. -/
def findOutput : List (String × AudioOutput) → String → Option Nat
  | [], _ => none
  | entry :: rest, soundOutputType =>
    if entry.1 = soundOutputType then some 0
    else (findOutput rest soundOutputType).map (· + 1)

/-- Dereference of a pointer into `mOutputs`. -/
def outputAt (outputs : List (String × AudioOutput)) (i : Nat) : AudioOutput :=
  (outputs.getD i ("", AudioOutput.mk "" true ControllerRef.mAmixer)).2

/-- The assignment `userMute = flag` through a pointer to a map entry. -/
def setUserMute (flag : Bool) (entry : String × AudioOutput) : String × AudioOutput :=
  (entry.1, AudioOutput.mk entry.2.name flag entry.2.volumeController)

/-- Conversion of an `int` to `int8_t` (two's complement wrap-around). -/
def toInt8 (n : Int) : Int := (n + 128) % 256 - 128

/-- The loop of the constructor over `mOutputs`, from position `i` on: each
output's controller is given the HAL's default volume, unmuted, and the
output's `userMute` is cleared. -/
def applyInitialVolumes (u : umiClient) : Nat → Nat → VolumeService → VolumeService
  | 0, _, s => s
  | fuel + 1, i, s =>
    if i < s.mOutputs.length then
      applyInitialVolumes u fuel (i + 1)
        (match (outputAt s.mOutputs i).volumeController with
         | ControllerRef.mAmixer =>
           { s with
             mAmixer := s.mAmixer.init false (u.defaultVolume s.halLog)
             halLog := s.halLog ++ [HalCall.getDefaultVolume]
             mOutputs := List.modify (setUserMute false) i s.mOutputs })
    else s

/-- The members of a `VolumeService` when the body of the constructor begins its
loop: `mOutputs` holds the one entry "alsa", built by the `AudioOutput`
constructor (which sets `userMute` to true) around `&mAmixer`.  The state of
`mAmixer` before `init` is not observable, since `init` overwrites both fields. -/
def VolumeService.members (log : List HalCall) : VolumeService :=
  { mAmixer := { mVolume := 0, mMuted := false }
    mOutputs := [("alsa", AudioOutput.mk "alsa" true ControllerRef.mAmixer)]
    halLog := log
    controllerLog := [] }

/-- The constructor `VolumeService::VolumeService`, after the category is
registered; `log` is the history of HAL calls at that time.  It dereferences
`umiInstance` without a null check: `none` is the result for a null pointer. -/
def VolumeService.create (umiInstance : Option umiClient) (log : List HalCall) :
    Option VolumeService :=
  match umiInstance with
  | none => none
  | some u =>
    some (applyInitialVolumes u (VolumeService.members log).mOutputs.length 0
      (VolumeService.members log))

/-- Source function `VolumeService::set`, after the payload is parsed; `volume` is the `int`
read from the request, `MIN_VOLUME` and `MAX_VOLUME` are the two constants of
the service (declared outside the embedded sources). -/
def VolumeService.set (MIN_VOLUME MAX_VOLUME : Int) (umi : Option umiClient)
    (s : VolumeService) (soundOutputType : String) (volume : Int) :
    Response × VolumeService :=
  let volLevel := toInt8 volume
  if volLevel > MAX_VOLUME ∨ volLevel < MIN_VOLUME then
    (Response.error ErrorText.errorVolumeLimit ErrorCode.API_ERROR_VOLUME_LIMIT, s)
  else
    match findOutput s.mOutputs soundOutputType with
    | none =>
      (Response.error ErrorText.errorInvalidVolumeControl
        ErrorCode.API_ERROR_INVALID_VOLUME_CONTROL, s)
    | some speaker =>
      let done := VolumeService.controllerSetVolume umi s
        (outputAt s.mOutputs speaker).volumeController volLevel
      if !done.1 then (Response.halError, done.2)
      else
        (Response.ok [("returnValue", JValue.bool true),
            ("soundOutput", JValue.str soundOutputType), ("volume", JValue.num volLevel)],
          done.2)

/-- Source function `VolumeService::up`, after the payload is parsed. -/
def VolumeService.up (MAX_VOLUME : Int) (umi : Option umiClient)
    (s : VolumeService) (soundOutputType : String) : Response × VolumeService :=
  match findOutput s.mOutputs soundOutputType with
  | none =>
    (Response.error ErrorText.errorInvalidVolumeControl
      ErrorCode.API_ERROR_INVALID_VOLUME_CONTROL, s)
  | some speaker =>
    let curVolume := (s.controller (outputAt s.mOutputs speaker).volumeController).getVolume
    if curVolume = MAX_VOLUME then
      (Response.error ErrorText.errorVolumeMaxMin ErrorCode.API_ERROR_VOLUME_LIMIT, s)
    else
      let done := VolumeService.controllerSetVolume umi s
        (outputAt s.mOutputs speaker).volumeController (curVolume + 1)
      if !done.1 then (Response.halError, done.2)
      else
        (Response.ok [("returnValue", JValue.bool true),
            ("soundOutput", JValue.str soundOutputType), ("volume", JValue.num (curVolume + 1))],
          done.2)

/-- Source function `VolumeService::down`, after the payload is parsed. -/
def VolumeService.down (MIN_VOLUME : Int) (umi : Option umiClient)
    (s : VolumeService) (soundOutputType : String) : Response × VolumeService :=
  match findOutput s.mOutputs soundOutputType with
  | none =>
    (Response.error ErrorText.errorInvalidVolumeControl
      ErrorCode.API_ERROR_INVALID_VOLUME_CONTROL, s)
  | some speaker =>
    let curVolume := (s.controller (outputAt s.mOutputs speaker).volumeController).getVolume
    if curVolume = MIN_VOLUME then
      (Response.error ErrorText.errorVolumeMaxMin ErrorCode.API_ERROR_VOLUME_LIMIT, s)
    else
      let done := VolumeService.controllerSetVolume umi s
        (outputAt s.mOutputs speaker).volumeController (curVolume - 1)
      if !done.1 then (Response.halError, done.2)
      else
        (Response.ok [("returnValue", JValue.bool true),
            ("soundOutput", JValue.str soundOutputType), ("volume", JValue.num (curVolume - 1))],
          done.2)

/-- Source function `VolumeService::muteSoundOut`, after the payload is parsed.  The call of
`setMute` is made only when `userMute` differs from the flag (short-circuit
conjunction). -/
def VolumeService.muteSoundOut (umi : Option umiClient) (s : VolumeService)
    (soundOutputType : String) (muteFlag : Bool) : Response × VolumeService :=
  match findOutput s.mOutputs soundOutputType with
  | none =>
    (Response.error ErrorText.errorInvalidVolumeControl
      ErrorCode.API_ERROR_INVALID_VOLUME_CONTROL, s)
  | some speaker =>
    if (outputAt s.mOutputs speaker).userMute ≠ muteFlag then
      let done := VolumeService.controllerSetMute umi s
        (outputAt s.mOutputs speaker).volumeController muteFlag
      if !done.1 then (Response.halError, done.2)
      else
        (Response.ok [("returnValue", JValue.bool true),
            ("soundOutput", JValue.str soundOutputType), ("mute", JValue.bool muteFlag)],
          { done.2 with
            mOutputs := List.modify (setUserMute muteFlag) speaker done.2.mOutputs })
    else
      (Response.ok [("returnValue", JValue.bool true),
          ("soundOutput", JValue.str soundOutputType), ("mute", JValue.bool muteFlag)],
        { s with
          mOutputs := List.modify (setUserMute muteFlag) speaker s.mOutputs })

/-! ## Reachable states, observations and concrete HAL clients -/

/-- The registry holds a connection for this source and sink. -/
def AudioService.hasConnection (s : AudioService) (source sink : String) : Prop :=
  ∃ c ∈ s.mConnections, c.source = source ∧ c.sink = sink

/-- The number of registry entries for this source and sink. -/
def AudioService.entriesFor (s : AudioService) (source sink : String) : Nat :=
  s.mConnections.countP (fun c => decide (c.source = source ∧ c.sink = sink))

/-- No two connections share source and sink, and every connection carries the
resource `MIXER0`. -/
def registryWellFormed (connections : List AudioConnection) : Prop :=
  connections.Pairwise (fun c d => ¬ (c.source = d.source ∧ c.sink = d.sink)) ∧
    ∀ c ∈ connections, c.audioResourceId = UMI_AUDIO_RESOURCE_T.MIXER0

/-- The states of an `AudioService` that a run of the process can reach with the
HAL pointer `umi`: it starts with an empty registry, handles `connect`,
`disconnect`, `mute` and `setSoundOut` requests one after the other, and other
users of the same HAL client may issue calls in between. -/
inductive AudioService.Reachable (umi : Option umiClient) : AudioService → Prop where
  | empty (log : List HalCall) :
      AudioService.Reachable umi { mConnections := [], halLog := log }
  | connect {s : AudioService} (source sink : String) :
      AudioService.Reachable umi s →
      AudioService.Reachable umi (AudioService.connect umi s source sink).2
  | disconnect {s : AudioService} (source sink : String) :
      AudioService.Reachable umi s →
      AudioService.Reachable umi (AudioService.disconnect umi s source sink).2
  | mute {s : AudioService} (source sink : String) (muted : Bool) :
      AudioService.Reachable umi s →
      AudioService.Reachable umi (AudioService.mute umi s source sink muted).2
  | setSoundOut {s : AudioService} (soundOut : String) :
      AudioService.Reachable umi s →
      AudioService.Reachable umi (AudioService.setSoundOut umi s soundOut).2
  | foreignCall {s : AudioService} (c : HalCall) :
      AudioService.Reachable umi s →
      AudioService.Reachable umi { s with halLog := s.halLog ++ [c] }

/-- The handler `connect` run `n` times in a row for the same source and sink:
the responses in order and the final state. -/
def AudioService.connectN (umi : Option umiClient) (source sink : String) :
    Nat → AudioService → List Response × AudioService
  | 0, s => ([], s)
  | n + 1, s =>
    ((AudioService.connect umi s source sink).1 ::
        (AudioService.connectN umi source sink n (AudioService.connect umi s source sink).2).1,
      (AudioService.connectN umi source sink n (AudioService.connect umi s source sink).2).2)

/-- The property "a `connect` that ends in a HAL error leaves the registry as it
was before the call", at one state and one request. -/
def AudioService.connectFailureRestores (umi : Option umiClient) (s : AudioService)
    (source sink : String) : Prop :=
  (AudioService.connect umi s source sink).1 = Response.halError →
    (AudioService.connect umi s source sink).2.mConnections = s.mConnections

/-- The number of HAL `setMute` calls in a call history. -/
def setMuteCalls (log : List HalCall) : Nat :=
  log.countP (fun c => match c with
    | HalCall.setMute _ _ => true
    | _ => false)

/-- The handler `mute` run twice in a row with the same arguments: the two
responses and the final state. -/
def AudioService.muteTwice (umi : Option umiClient) (s : AudioService)
    (source sink : String) (muted : Bool) : Response × Response × AudioService :=
  ((AudioService.mute umi s source sink muted).1,
    (AudioService.mute umi (AudioService.mute umi s source sink muted).2 source sink muted).1,
    (AudioService.mute umi (AudioService.mute umi s source sink muted).2 source sink muted).2)

/-- The property "two `mute` calls in a row with the same flag issue at most one
HAL `setMute` call in total", at one state and one request. -/
def AudioService.muteTwiceAtMostOneHalCall (umi : Option umiClient) (s : AudioService)
    (source sink : String) (muted : Bool) : Prop :=
  setMuteCalls (AudioService.muteTwice umi s source sink muted).2.2.halLog
    ≤ setMuteCalls s.halLog + 1

/-- The first of two `mute` calls issues a HAL `setMute` call and that call
fails: an entry matches, its `muted` differs from the flag, the HAL pointer is
not null, and the HAL does not answer `UMI_ERROR_NONE`. -/
def AudioService.firstSetMuteFails (umi : Option umiClient) (s : AudioService)
    (source sink : String) (muted : Bool) : Prop :=
  ∃ i u, findAudioConnection s.mConnections source sink = some i ∧
    (connectionAt s.mConnections i).muted ≠ muted ∧ umi = some u ∧
    u.reply s.halLog (HalCall.setMute (connectionAt s.mConnections i).audioResourceId muted)
      ≠ UMI_ERROR.NONE

/-- The volume of every output lies in `[MIN_VOLUME, MAX_VOLUME]`. -/
def VolumeService.volumesInRange (MIN_VOLUME MAX_VOLUME : Int) (s : VolumeService) : Prop :=
  ∀ e ∈ s.mOutputs,
    MIN_VOLUME ≤ (s.controller e.2.volumeController).getVolume ∧
      (s.controller e.2.volumeController).getVolume ≤ MAX_VOLUME

/-- The current volume of the output with this name, read from its controller;
`none` when the registry has no such output. -/
def VolumeService.volumeOf (s : VolumeService) (soundOutputType : String) : Option Int :=
  (findOutput s.mOutputs soundOutputType).map
    (fun i => (s.controller (outputAt s.mOutputs i).volumeController).getVolume)

/-- The output name is a key of the Output Registry. -/
def VolumeService.knowsOutput (s : VolumeService) (soundOutputType : String) : Prop :=
  ∃ e ∈ s.mOutputs, e.1 = soundOutputType

/-- The states of a `VolumeService` that a run of the process can reach with the
HAL pointer `umi`: it is constructed, handles `set`, `up`, `down` and
`muteSoundOut` requests one after the other, and other users of the same HAL
client may issue calls in between. -/
inductive VolumeService.Reachable (MIN_VOLUME MAX_VOLUME : Int) (umi : Option umiClient) :
    VolumeService → Prop where
  | create (log : List HalCall) (s : VolumeService) :
      VolumeService.create umi log = some s →
      VolumeService.Reachable MIN_VOLUME MAX_VOLUME umi s
  | set {s : VolumeService} (soundOutputType : String) (volume : Int) :
      VolumeService.Reachable MIN_VOLUME MAX_VOLUME umi s →
      VolumeService.Reachable MIN_VOLUME MAX_VOLUME umi
        (VolumeService.set MIN_VOLUME MAX_VOLUME umi s soundOutputType volume).2
  | up {s : VolumeService} (soundOutputType : String) :
      VolumeService.Reachable MIN_VOLUME MAX_VOLUME umi s →
      VolumeService.Reachable MIN_VOLUME MAX_VOLUME umi
        (VolumeService.up MAX_VOLUME umi s soundOutputType).2
  | down {s : VolumeService} (soundOutputType : String) :
      VolumeService.Reachable MIN_VOLUME MAX_VOLUME umi s →
      VolumeService.Reachable MIN_VOLUME MAX_VOLUME umi
        (VolumeService.down MIN_VOLUME umi s soundOutputType).2
  | muteSoundOut {s : VolumeService} (soundOutputType : String) (muteFlag : Bool) :
      VolumeService.Reachable MIN_VOLUME MAX_VOLUME umi s →
      VolumeService.Reachable MIN_VOLUME MAX_VOLUME umi
        (VolumeService.muteSoundOut umi s soundOutputType muteFlag).2
  | foreignCall {s : VolumeService} (c : HalCall) :
      VolumeService.Reachable MIN_VOLUME MAX_VOLUME umi s →
      VolumeService.Reachable MIN_VOLUME MAX_VOLUME umi { s with halLog := s.halLog ++ [c] }

/-- The property "`set` on an output name that the registry does not know fails
with the unknown-output error", at one state and one request. -/
def VolumeService.setUnknownOutputFails (MIN_VOLUME MAX_VOLUME : Int)
    (umi : Option umiClient) (s : VolumeService) (soundOutputType : String)
    (volume : Int) : Prop :=
  ¬ s.knowsOutput soundOutputType →
    (VolumeService.set MIN_VOLUME MAX_VOLUME umi s soundOutputType volume).1 =
      Response.error ErrorText.errorInvalidVolumeControl
        ErrorCode.API_ERROR_INVALID_VOLUME_CONTROL

/-- A HAL client whose every call succeeds and whose default volume is `volume`. -/
def umiReliable (volume : Int) : umiClient :=
  { reply := fun _ _ => UMI_ERROR.NONE, defaultVolume := fun _ => volume }

/-- A HAL client whose every call fails and whose default volume is `volume`. -/
def umiBroken (volume : Int) : umiClient :=
  { reply := fun _ _ => UMI_ERROR.FAIL, defaultVolume := fun _ => volume }

/-- A HAL client that answers the first call of a history with success and
every later call with failure. -/
def umiFirstOnly : umiClient :=
  { reply := fun log _ => if log = [] then UMI_ERROR.NONE else UMI_ERROR.FAIL,
    defaultVolume := fun _ => 0 }

/-- A HAL client that fails every `setMute` call and succeeds otherwise. -/
def umiMuteBroken : umiClient :=
  { reply := fun _ c => match c with
      | HalCall.setMute _ _ => UMI_ERROR.FAIL
      | _ => UMI_ERROR.NONE,
    defaultVolume := fun _ => 0 }

/-- The empty registry before any HAL call. -/
def AudioService.start : AudioService := { mConnections := [], halLog := [] }

/-- The registry after one successful `connect("AMIXER", "ALSA")` on the empty
registry. -/
def AudioService.connected : AudioService :=
  { mConnections := [AudioConnection.mk "AMIXER" "ALSA" "" false UMI_AUDIO_RESOURCE_T.MIXER0]
    halLog := [HalCall.connectInput UMI_AUDIO_RESOURCE_T.MIXER0] }

/-- The `VolumeService` as constructed with a HAL whose default volume is
`volume`. -/
def VolumeService.fresh (volume : Int) : VolumeService :=
  { mAmixer := { mVolume := volume, mMuted := false }
    mOutputs := [("alsa", AudioOutput.mk "alsa" false ControllerRef.mAmixer)]
    halLog := [HalCall.getDefaultVolume]
    controllerLog := [] }

/-- The loop of the destructor `AudioService::~AudioService`: every remaining
connection is disconnected through `doDisconnectAudio`, the results are
dropped; the value is the HAL call history afterwards. -/
def disconnectAll (umi : Option umiClient) : List HalCall → List AudioConnection → List HalCall
  | log, [] => log
  | log, connection :: rest =>
    disconnectAll umi (doDisconnectAudio umi log connection).2 rest

/-- The destructor `AudioService::~AudioService`: the loop over the connections,
then `mConnections.clear()`. -/
def AudioService.teardown (umi : Option umiClient) (s : AudioService) : AudioService :=
  { mConnections := [], halLog := disconnectAll umi s.halLog s.mConnections }

/-- The HAL call is a connect-input, disconnect-input or mute call that carries
the sentinel `UMI_AUDIO_RESOURCE_NO_CONNECTION`. -/
def usesNoConnection : HalCall → Bool
  | HalCall.connectInput UMI_AUDIO_RESOURCE_T.NO_CONNECTION => true
  | HalCall.disconnectInput UMI_AUDIO_RESOURCE_T.NO_CONNECTION => true
  | HalCall.setMute UMI_AUDIO_RESOURCE_T.NO_CONNECTION _ => true
  | _ => false

/-- The HAL calls issued between two states of the service: the part of the call
history of `after` that lies beyond the call history of `before`. -/
def callsIssued (before after : AudioService) : List HalCall :=
  after.halLog.drop before.halLog.length

/-- The user-mute flag of the output with this name; `none` when the registry has
no such output. -/
def VolumeService.userMuteOf (s : VolumeService) (soundOutputType : String) : Option Bool :=
  (findOutput s.mOutputs soundOutputType).map (fun i => (outputAt s.mOutputs i).userMute)

/-- The registry that holds the connection AMIXER to ALSA, routed to "alsa" and
muted: the state after `connect`, `setSoundOut("alsa")` and `mute(true)` with a
HAL that succeeds. -/
def AudioService.routedMuted : AudioService :=
  { mConnections := [AudioConnection.mk "AMIXER" "ALSA" "alsa" true UMI_AUDIO_RESOURCE_T.MIXER0]
    halLog := [HalCall.connectInput UMI_AUDIO_RESOURCE_T.MIXER0,
      HalCall.setSoundOutput UMI_AUDIO_SNDOUT_T.AMIXER,
      HalCall.setMute UMI_AUDIO_RESOURCE_T.MIXER0 true] }

/-! ## Lemmas on the connection registry -/

theorem findAudioConnection_eq_none_iff (cs : List AudioConnection) (a b : String) :
    findAudioConnection cs a b = none ↔ ∀ c ∈ cs, ¬ (c.source = a ∧ c.sink = b) := by
  induction cs with
  | nil => simp [findAudioConnection]
  | cons c rest ih =>
    by_cases h : c.source = a ∧ c.sink = b
    · simp [findAudioConnection, h]
    · simp only [findAudioConnection, h, if_false, Option.map_eq_none', ih, List.mem_cons,
        forall_eq_or_imp, not_false_eq_true, true_and]

theorem findAudioConnection_some (cs : List AudioConnection) (a b : String) (i : Nat)
    (h : findAudioConnection cs a b = some i) :
    cs[i]? = some (connectionAt cs i) ∧ (connectionAt cs i).source = a ∧
      (connectionAt cs i).sink = b := by
  induction cs generalizing i with
  | nil => simp [findAudioConnection] at h
  | cons c rest ih =>
    by_cases hc : c.source = a ∧ c.sink = b
    · simp only [findAudioConnection, hc, and_self, if_true, Option.some.injEq] at h
      subst h
      simp [connectionAt, hc]
    · simp only [findAudioConnection, hc, if_false, Option.map_eq_some'] at h
      obtain ⟨j, hj, rfl⟩ := h
      have := ih j hj
      simpa [connectionAt] using this

theorem findAudioConnection_some_mem (cs : List AudioConnection) (a b : String) (i : Nat)
    (h : findAudioConnection cs a b = some i) : connectionAt cs i ∈ cs := by
  have := (findAudioConnection_some cs a b i h).1
  exact (List.mem_iff_getElem?.2 ⟨i, this⟩)

theorem removeAudioConnection_sublist (cs : List AudioConnection) (a b : String) :
    (removeAudioConnection cs a b).Sublist cs := by
  induction cs with
  | nil => simp [removeAudioConnection]
  | cons c rest ih =>
    by_cases hc : c.source = a ∧ c.sink = b
    · simp [removeAudioConnection, hc]
    · simp only [removeAudioConnection, hc, if_false]
      exact ih.cons₂ c

theorem removeAudioConnection_of_no_match (cs : List AudioConnection) (a b : String)
    (h : ∀ c ∈ cs, ¬ (c.source = a ∧ c.sink = b)) : removeAudioConnection cs a b = cs := by
  induction cs with
  | nil => simp [removeAudioConnection]
  | cons c rest ih =>
    have hc := h c (List.mem_cons_self _ _)
    simp only [removeAudioConnection, hc, if_false]
    rw [ih (fun d hd => h d (List.mem_cons_of_mem _ hd))]

theorem removeAudioConnection_append_new (cs : List AudioConnection) (a b : String)
    (new : AudioConnection) (h : ∀ c ∈ cs, ¬ (c.source = a ∧ c.sink = b))
    (hnew : new.source = a ∧ new.sink = b) :
    removeAudioConnection (cs ++ [new]) a b = cs := by
  induction cs with
  | nil => simp [removeAudioConnection, hnew]
  | cons c rest ih =>
    have hc := h c (List.mem_cons_self _ _)
    have ih2 := ih (fun d hd => h d (List.mem_cons_of_mem _ hd))
    rw [List.cons_append, removeAudioConnection, if_neg hc, ih2]

theorem removeAudioConnection_filter (cs : List AudioConnection) (a b : String)
    (hu : cs.Pairwise (fun c d => ¬ (c.source = d.source ∧ c.sink = d.sink))) :
    removeAudioConnection cs a b =
      cs.filter (fun c => !decide (c.source = a ∧ c.sink = b)) := by
  induction cs with
  | nil => simp [removeAudioConnection]
  | cons c rest ih =>
    rw [List.pairwise_cons] at hu
    by_cases hc : c.source = a ∧ c.sink = b
    · simp only [removeAudioConnection, hc, and_self, if_true, List.filter_cons, decide_True,
        Bool.not_true, Bool.false_eq_true, if_false]
      symm
      rw [List.filter_eq_self]
      intro d hd
      have := hu.1 d hd
      simp only [Bool.not_eq_true', decide_eq_false_iff_not]
      intro hd2
      exact this ⟨hc.1.trans hd2.1.symm, hc.2.trans hd2.2.symm⟩
    · simp only [removeAudioConnection, hc, if_false, List.filter_cons, decide_False,
        Bool.not_false, if_true]
      rw [ih hu.2]

theorem removeAudioConnection_length (cs : List AudioConnection) (a b : String)
    (h : ∃ c ∈ cs, c.source = a ∧ c.sink = b) :
    (removeAudioConnection cs a b).length + 1 = cs.length := by
  induction cs with
  | nil => simp at h
  | cons c rest ih =>
    by_cases hc : c.source = a ∧ c.sink = b
    · simp [removeAudioConnection, hc]
    · simp only [removeAudioConnection, hc, if_false, List.length_cons]
      obtain ⟨d, hd, hm⟩ := h
      rcases List.mem_cons.1 hd with rfl | hd
      · exact absurd hm hc
      · rw [ih ⟨d, hd, hm⟩]

theorem countP_le_one_of_pairwise (cs : List AudioConnection) (a b : String)
    (hu : cs.Pairwise (fun c d => ¬ (c.source = d.source ∧ c.sink = d.sink))) :
    cs.countP (fun c => decide (c.source = a ∧ c.sink = b)) ≤ 1 := by
  induction cs with
  | nil => simp
  | cons c rest ih =>
    rw [List.pairwise_cons] at hu
    by_cases hc : c.source = a ∧ c.sink = b
    · have hz : rest.countP (fun c => decide (c.source = a ∧ c.sink = b)) = 0 := by
        rw [List.countP_eq_zero]
        intro d hd
        have := hu.1 d hd
        simp only [decide_eq_true_eq]
        intro hd2
        exact this ⟨hc.1.trans hd2.1.symm, hc.2.trans hd2.2.symm⟩
      rw [List.countP_cons_of_pos _ _ (by simpa using hc), hz]
    · rw [List.countP_cons_of_neg _ _ (by simpa using hc)]
      exact ih hu.2

theorem map_set_of_same (cs : List AudioConnection) (i : Nat) (c : AudioConnection)
    {β : Type} (f : AudioConnection → β) (h : f c = f (connectionAt cs i)) :
    (cs.set i c).map f = cs.map f := by
  induction cs generalizing i with
  | nil => simp
  | cons d rest ih =>
    cases i with
    | zero => simpa [connectionAt] using h
    | succ j =>
      simp only [List.set_cons_succ, List.map_cons, List.cons.injEq, true_and]
      exact ih j (by simpa [connectionAt] using h)

/-! ## The registry invariant -/

theorem isValidSource_eq (a : String) (h : isValidSource a = true) : a = "AMIXER" := by
  unfold isValidSource at h
  split at h
  · next h1 => exact h1.symm
  · exact absurd h (by decide)

theorem isValidSink_eq (b : String) (h : isValidSink b = true) : b = "ALSA" := by
  unfold isValidSink at h
  split at h
  · next h1 => exact h1.symm
  · exact absurd h (by decide)

theorem registryWellFormed_sublist {cs ds : List AudioConnection} (h : ds.Sublist cs)
    (hw : registryWellFormed cs) : registryWellFormed ds :=
  ⟨hw.1.sublist h, fun c hc => hw.2 c (h.subset hc)⟩

theorem connectEntry_fst (cs : List AudioConnection) (a b : String)
    (id : UMI_AUDIO_RESOURCE_T) :
    (findAudioConnection cs a b = none ∧
        (connectEntry cs a b id).1 = cs ++ [AudioConnection.mk a b "" false id] ∧
        connectionAt (connectEntry cs a b id).1 (connectEntry cs a b id).2
          = AudioConnection.mk a b "" false id) ∨
      (∃ i, findAudioConnection cs a b = some i ∧ (connectEntry cs a b id).1 = cs ∧
        (connectEntry cs a b id).2 = i) := by
  unfold connectEntry
  cases h : findAudioConnection cs a b with
  | none => left; simp [connectionAt]
  | some i => right; exact ⟨i, rfl, rfl, rfl⟩

theorem connectEntry_wellFormed (cs : List AudioConnection) (a b : String)
    (hw : registryWellFormed cs) :
    registryWellFormed (connectEntry cs a b UMI_AUDIO_RESOURCE_T.MIXER0).1 := by
  rcases connectEntry_fst cs a b UMI_AUDIO_RESOURCE_T.MIXER0 with ⟨hn, he, _⟩ | ⟨i, _, he, _⟩
  · rw [he]
    rw [findAudioConnection_eq_none_iff] at hn
    refine ⟨?_, ?_⟩
    · rw [List.pairwise_append]
      refine ⟨hw.1, by simp, ?_⟩
      intro c hc d hd
      rw [List.mem_singleton] at hd
      subst hd
      exact hn c hc
    · intro c hc
      rcases List.mem_append.1 hc with hc | hc
      · exact hw.2 c hc
      · rw [List.mem_singleton] at hc
        subst hc
        rfl
  · rw [he]; exact hw

theorem connectEntry_target (cs : List AudioConnection) (a b : String)
    (id : UMI_AUDIO_RESOURCE_T) :
    connectionAt (connectEntry cs a b id).1 (connectEntry cs a b id).2
        ∈ (connectEntry cs a b id).1 ∧
      (connectionAt (connectEntry cs a b id).1 (connectEntry cs a b id).2).source = a ∧
      (connectionAt (connectEntry cs a b id).1 (connectEntry cs a b id).2).sink = b := by
  rcases connectEntry_fst cs a b id with ⟨_, he, hc⟩ | ⟨i, hf, he, hi⟩
  · rw [hc, he]
    simp
  · rw [he, hi]
    exact ⟨findAudioConnection_some_mem cs a b i hf, (findAudioConnection_some cs a b i hf).2⟩

theorem getResourceId_valid (a b : String) (ha : isValidSource a = true)
    (hb : isValidSink b = true) : getResourceId a b = UMI_AUDIO_RESOURCE_T.MIXER0 := by
  rw [isValidSource_eq a ha, isValidSink_eq b hb]
  decide

/-- What `connect` does for a request that passes validation. -/
theorem connect_valid (umi : Option umiClient) (s : AudioService) (a b : String)
    (ha : isValidSource a = true) (hb : isValidSink b = true) :
    AudioService.connect umi s a b =
      if (match umi with
          | some u => u.call s.halLog (HalCall.connectInput
              (connectionAt (connectEntry s.mConnections a b UMI_AUDIO_RESOURCE_T.MIXER0).1
                (connectEntry s.mConnections a b UMI_AUDIO_RESOURCE_T.MIXER0).2).audioResourceId)
          | none => (UMI_ERROR.FAIL, s.halLog)).1 = UMI_ERROR.NONE then
        (Response.ok [("returnValue", JValue.bool true), ("source", JValue.str a),
            ("sink", JValue.str b)],
          { mConnections := (connectEntry s.mConnections a b UMI_AUDIO_RESOURCE_T.MIXER0).1,
            halLog := (match umi with
              | some u => u.call s.halLog (HalCall.connectInput
                  (connectionAt (connectEntry s.mConnections a b UMI_AUDIO_RESOURCE_T.MIXER0).1
                    (connectEntry s.mConnections a b
                      UMI_AUDIO_RESOURCE_T.MIXER0).2).audioResourceId)
              | none => (UMI_ERROR.FAIL, s.halLog)).2 })
      else
        (Response.halError,
          { mConnections := removeAudioConnection
              (connectEntry s.mConnections a b UMI_AUDIO_RESOURCE_T.MIXER0).1 a b,
            halLog := (match umi with
              | some u => u.call s.halLog (HalCall.connectInput
                  (connectionAt (connectEntry s.mConnections a b UMI_AUDIO_RESOURCE_T.MIXER0).1
                    (connectEntry s.mConnections a b
                      UMI_AUDIO_RESOURCE_T.MIXER0).2).audioResourceId)
              | none => (UMI_ERROR.FAIL, s.halLog)).2 }) := by
  unfold AudioService.connect
  simp only [ha, hb, getResourceId_valid a b ha hb, Bool.not_true, Bool.or_self,
    Bool.false_eq_true, if_false, reduceCtorEq]

theorem connect_invalid (umi : Option umiClient) (s : AudioService) (a b : String)
    (h : ¬ (isValidSource a = true ∧ isValidSink b = true)) :
    AudioService.connect umi s a b =
      (Response.error ErrorText.errorInvalidParameters
        ErrorCode.API_ERROR_INVALID_PARAMETERS, s) := by
  unfold AudioService.connect
  have : (!isValidSource a || !isValidSink b) = true := by
    cases h1 : isValidSource a <;> cases h2 : isValidSink b <;> simp_all
  rw [if_pos this]

theorem connect_wellFormed (umi : Option umiClient) (s : AudioService) (a b : String)
    (hw : registryWellFormed s.mConnections) :
    registryWellFormed (AudioService.connect umi s a b).2.mConnections := by
  by_cases h : isValidSource a = true ∧ isValidSink b = true
  · rw [connect_valid umi s a b h.1 h.2]
    split
    · exact connectEntry_wellFormed _ a b hw
    · exact registryWellFormed_sublist (removeAudioConnection_sublist _ a b)
        (connectEntry_wellFormed _ a b hw)
  · rw [connect_invalid umi s a b h]; exact hw

theorem disconnect_mConnections (umi : Option umiClient) (s : AudioService) (a b : String) :
    (AudioService.disconnect umi s a b).2.mConnections =
      removeAudioConnection s.mConnections a b := by
  unfold AudioService.disconnect
  cases h : findAudioConnection s.mConnections a b with
  | none =>
    simp only
    rw [findAudioConnection_eq_none_iff] at h
    rw [removeAudioConnection_of_no_match _ a b h]
  | some i =>
    simp only
    split <;> rfl

theorem doMuteAudio_connection (umi : Option umiClient) (log : List HalCall)
    (c : AudioConnection) (muted : Bool) :
    (doMuteAudio umi log c muted).2.1 = c ∨
      (doMuteAudio umi log c muted).2.1 = { c with muted := muted } := by
  unfold doMuteAudio
  split
  · left; rfl
  · cases umi with
    | none => left; rfl
    | some u =>
      simp only
      split
      · left; rfl
      · right; rfl

theorem mute_mConnections (umi : Option umiClient) (s : AudioService) (a b : String)
    (muted : Bool) :
    (AudioService.mute umi s a b muted).2.mConnections = s.mConnections ∨
      ∃ i, findAudioConnection s.mConnections a b = some i ∧
        (AudioService.mute umi s a b muted).2.mConnections =
          s.mConnections.set i (doMuteAudio umi s.halLog (connectionAt s.mConnections i) muted).2.1
        := by
  unfold AudioService.mute
  cases h : findAudioConnection s.mConnections a b with
  | none => left; rfl
  | some i =>
    right
    refine ⟨i, rfl, ?_⟩
    simp only
    split <;> rfl

theorem registryWellFormed_set (cs : List AudioConnection) (i : Nat) (c : AudioConnection)
    (hs : c.source = (connectionAt cs i).source) (hk : c.sink = (connectionAt cs i).sink)
    (hid : c.audioResourceId = (connectionAt cs i).audioResourceId)
    (hw : registryWellFormed cs) : registryWellFormed (cs.set i c) := by
  have h1 : (cs.set i c).map (fun c => (c.source, c.sink, c.audioResourceId))
      = cs.map (fun c => (c.source, c.sink, c.audioResourceId)) :=
    map_set_of_same cs i c _ (by simp [hs, hk, hid])
  have key : ∀ ds : List AudioConnection, registryWellFormed ds ↔
      ((ds.map (fun c => (c.source, c.sink, c.audioResourceId))).Pairwise
          (fun x y => ¬ (x.1 = y.1 ∧ x.2.1 = y.2.1)) ∧
        ∀ x ∈ ds.map (fun c => (c.source, c.sink, c.audioResourceId)),
          x.2.2 = UMI_AUDIO_RESOURCE_T.MIXER0) := by
    intro ds
    unfold registryWellFormed
    rw [List.pairwise_map]
    simp
  rw [key, h1, ← key]
  exact hw

theorem mute_wellFormed (umi : Option umiClient) (s : AudioService) (a b : String)
    (muted : Bool) (hw : registryWellFormed s.mConnections) :
    registryWellFormed (AudioService.mute umi s a b muted).2.mConnections := by
  rcases mute_mConnections umi s a b muted with h | ⟨i, _, h⟩
  · rw [h]; exact hw
  · rw [h]
    rcases doMuteAudio_connection umi s.halLog (connectionAt s.mConnections i) muted with e | e
      <;> rw [e] <;> exact registryWellFormed_set _ _ _ rfl rfl rfl hw

theorem setSoundOut_mConnections (umi : Option umiClient) (s : AudioService) (soundOut : String) :
    (AudioService.setSoundOut umi s soundOut).2.mConnections = s.mConnections ∨
      (AudioService.setSoundOut umi s soundOut).2.mConnections =
        s.mConnections.map (fun c => { c with outputMode := soundOut }) := by
  unfold AudioService.setSoundOut
  split
  · left; rfl
  · cases umi with
    | none => left; rfl
    | some u =>
      simp only
      split
      · right; rfl
      · left; rfl

theorem setSoundOut_wellFormed (umi : Option umiClient) (s : AudioService) (soundOut : String)
    (hw : registryWellFormed s.mConnections) :
    registryWellFormed (AudioService.setSoundOut umi s soundOut).2.mConnections := by
  rcases setSoundOut_mConnections umi s soundOut with h | h
  · rw [h]; exact hw
  · rw [h]
    refine ⟨?_, ?_⟩
    · rw [List.pairwise_map]
      exact hw.1
    · intro c hc
      rw [List.mem_map] at hc
      obtain ⟨d, hd, rfl⟩ := hc
      exact hw.2 d hd

theorem reachable_wellFormed (umi : Option umiClient) (s : AudioService)
    (h : AudioService.Reachable umi s) : registryWellFormed s.mConnections := by
  induction h with
  | empty log => exact ⟨List.Pairwise.nil, by simp⟩
  | connect a b _ ih => exact connect_wellFormed umi _ a b ih
  | disconnect a b _ ih =>
    rw [disconnect_mConnections]
    exact registryWellFormed_sublist (removeAudioConnection_sublist _ a b) ih
  | mute a b m _ ih => exact mute_wellFormed umi _ a b m ih
  | setSoundOut o _ ih => exact setSoundOut_wellFormed umi _ o ih
  | foreignCall c _ ih => exact ih

/-! ## Connect, disconnect and their rollback -/

theorem removeAudioConnection_no_entry (cs : List AudioConnection) (a b : String)
    (hu : cs.Pairwise (fun c d => ¬ (c.source = d.source ∧ c.sink = d.sink))) :
    ∀ c ∈ removeAudioConnection cs a b, ¬ (c.source = a ∧ c.sink = b) := by
  intro c hc
  rw [removeAudioConnection_filter cs a b hu, List.mem_filter] at hc
  have h2 := hc.2
  simp only [Bool.not_eq_true', decide_eq_false_iff_not] at h2
  exact h2

theorem connect_target_resource (s : AudioService) (a b : String)
    (hw : registryWellFormed s.mConnections) :
    (connectionAt (connectEntry s.mConnections a b UMI_AUDIO_RESOURCE_T.MIXER0).1
      (connectEntry s.mConnections a b UMI_AUDIO_RESOURCE_T.MIXER0).2).audioResourceId
      = UMI_AUDIO_RESOURCE_T.MIXER0 :=
  (connectEntry_wellFormed s.mConnections a b hw).2 _
    (connectEntry_target s.mConnections a b UMI_AUDIO_RESOURCE_T.MIXER0).1

theorem connect_halError_mConnections (umi : Option umiClient) (s : AudioService)
    (a b : String) (h : (AudioService.connect umi s a b).1 = Response.halError) :
    (AudioService.connect umi s a b).2.mConnections =
      removeAudioConnection s.mConnections a b := by
  by_cases hv : isValidSource a = true ∧ isValidSink b = true
  · rw [connect_valid umi s a b hv.1 hv.2] at h ⊢
    split at h
    · exact absurd h (by simp [Response.halError])
    · next hc =>
      rw [if_neg hc]
      rcases connectEntry_fst s.mConnections a b UMI_AUDIO_RESOURCE_T.MIXER0 with
        ⟨hn, he, _⟩ | ⟨i, _, he, _⟩
      · rw [findAudioConnection_eq_none_iff] at hn
        simp only [he]
        rw [removeAudioConnection_append_new _ a b _ hn ⟨rfl, rfl⟩,
          removeAudioConnection_of_no_match _ a b hn]
      · simp only [he]
  · rw [connect_invalid umi s a b hv] at h
    exact absurd h (by simp [Response.halError])

theorem connect_success_entries (umi : Option umiClient) (s : AudioService) (a b : String)
    (hw : registryWellFormed s.mConnections)
    (ha : isValidSource a = true) (hb : isValidSink b = true)
    (hs : (AudioService.connect umi s a b).1.isSuccess = true) :
    (AudioService.connect umi s a b).2.entriesFor a b = 1 := by
  have hle : (AudioService.connect umi s a b).2.entriesFor a b ≤ 1 :=
    countP_le_one_of_pairwise _ a b (connect_wellFormed umi s a b hw).1
  have hge : 0 < (AudioService.connect umi s a b).2.entriesFor a b := by
    unfold AudioService.entriesFor
    rw [List.countP_pos_iff]
    rw [connect_valid umi s a b ha hb] at hs ⊢
    split at hs
    · next hc =>
      rw [if_pos hc]
      have ht := connectEntry_target s.mConnections a b UMI_AUDIO_RESOURCE_T.MIXER0
      exact ⟨_, ht.1, by simpa using ht.2⟩
    · simp [Response.halError, Response.isSuccess] at hs
  omega

theorem connectN_entries (umi : Option umiClient) (a b : String)
    (ha : isValidSource a = true) (hb : isValidSink b = true) (n : Nat) :
    ∀ s : AudioService, registryWellFormed s.mConnections → 1 ≤ n →
      (∀ r ∈ (AudioService.connectN umi a b n s).1, r.isSuccess = true) →
      (AudioService.connectN umi a b n s).2.entriesFor a b = 1 := by
  induction n with
  | zero => intro s _ h1; omega
  | succ n ih =>
    intro s hw _ hall
    rw [AudioService.connectN] at hall ⊢
    simp only [List.mem_cons, forall_eq_or_imp] at hall
    cases n with
    | zero =>
      simp only [AudioService.connectN]
      exact connect_success_entries umi s a b hw ha hb hall.1
    | succ m =>
      exact ih _ (connect_wellFormed umi s a b hw) (by omega) hall.2

theorem hasConnection_iff_find (s : AudioService) (a b : String) :
    s.hasConnection a b ↔ ∃ i, findAudioConnection s.mConnections a b = some i := by
  unfold AudioService.hasConnection
  constructor
  · intro h
    cases hf : findAudioConnection s.mConnections a b with
    | none =>
      rw [findAudioConnection_eq_none_iff] at hf
      obtain ⟨c, hc, hm⟩ := h
      exact absurd hm (hf c hc)
    | some i => exact ⟨i, rfl⟩
  · rintro ⟨i, hi⟩
    exact ⟨_, findAudioConnection_some_mem _ a b i hi, (findAudioConnection_some _ a b i hi).2⟩

theorem halFails_iff (umi : Option umiClient) (log : List HalCall) (c : HalCall) :
    halFails umi log c ↔
      ¬ ((match umi with
          | some u => u.call log c
          | none => (UMI_ERROR.FAIL, log)).1 = UMI_ERROR.NONE) := by
  unfold halFails
  cases umi with
  | none => simp
  | some u => simp [umiClient.call]

/-- C1: in a reachable registry state, a `connect` for a source and sink that
pass validation, whose HAL connect-input call fails (or whose HAL pointer is
null), answers with the HAL error and leaves no entry for this source and sink,
whether the entry was created by this call or was there before. -/
theorem connect_hal_failure_leaves_no_entry (umi : Option umiClient) (s : AudioService)
    (source sink : String) (hreach : AudioService.Reachable umi s)
    (hsource : isValidSource source = true) (hsink : isValidSink sink = true)
    (hfail : halFails umi s.halLog (HalCall.connectInput UMI_AUDIO_RESOURCE_T.MIXER0)) :
    (AudioService.connect umi s source sink).1 = Response.halError ∧
      ¬ (AudioService.connect umi s source sink).2.hasConnection source sink := by
  have hw := reachable_wellFormed umi s hreach
  rw [halFails_iff] at hfail
  rw [connect_valid umi s source sink hsource hsink, connect_target_resource s source sink hw,
    if_neg hfail]
  refine ⟨rfl, ?_⟩
  rintro ⟨c, hc, hm⟩
  exact removeAudioConnection_no_entry _ source sink
    (connectEntry_wellFormed s.mConnections source sink hw).1 c hc hm

/-- C1, at a concrete input: the registry holds the connection AMIXER to ALSA
from an earlier successful `connect`, and the HAL fails the repeated `connect`. -/
theorem connect_hal_failure_leaves_no_entry_witness :
    AudioService.Reachable (some umiFirstOnly) AudioService.connected ∧
      AudioService.connected.hasConnection "AMIXER" "ALSA" ∧
      (AudioService.connect (some umiFirstOnly) AudioService.connected "AMIXER" "ALSA").1
        = Response.halError ∧
      ¬ (AudioService.connect (some umiFirstOnly) AudioService.connected
          "AMIXER" "ALSA").2.hasConnection "AMIXER" "ALSA" :=
  have hr : AudioService.Reachable (some umiFirstOnly) AudioService.connected :=
    (by decide : (AudioService.connect (some umiFirstOnly) AudioService.start
        "AMIXER" "ALSA").2 = AudioService.connected) ▸
      AudioService.Reachable.connect "AMIXER" "ALSA" (AudioService.Reachable.empty [])
  ⟨hr, ⟨_, List.mem_singleton.2 rfl, by decide⟩,
    connect_hal_failure_leaves_no_entry (some umiFirstOnly) AudioService.connected
      "AMIXER" "ALSA" hr (by decide) (by decide)
      (fun u hu => by cases hu; decide)⟩

/-- C2, as stated, fails: the registry holds the connection AMIXER to ALSA, the
HAL fails the repeated `connect`, and the registry afterwards is empty, not
the registry before the call. -/
theorem connect_failure_restores_counterexample :
    ¬ AudioService.connectFailureRestores (some umiFirstOnly) AudioService.connected
        "AMIXER" "ALSA" := by
  unfold AudioService.connectFailureRestores
  decide

/-- C2, amended: when `connect` ends in a HAL error and the registry held no
entry for the source and sink before the call, the registry afterwards equals
the registry before; in every case it is the registry before with the first
entry for this source and sink erased. -/
theorem connect_failure_restores_when_absent (umi : Option umiClient) (s : AudioService)
    (source sink : String) :
    (¬ s.hasConnection source sink →
        AudioService.connectFailureRestores umi s source sink) ∧
      ((AudioService.connect umi s source sink).1 = Response.halError →
        (AudioService.connect umi s source sink).2.mConnections =
          removeAudioConnection s.mConnections source sink) := by
  refine ⟨?_, connect_halError_mConnections umi s source sink⟩
  intro habsent herr
  rw [connect_halError_mConnections umi s source sink herr]
  apply removeAudioConnection_of_no_match
  intro c hc hm
  exact habsent ⟨c, hc, hm⟩

/-- C2 amended, at a concrete input: a failing `connect` on the empty registry. -/
theorem connect_failure_restores_when_absent_witness :
    ¬ AudioService.start.hasConnection "AMIXER" "ALSA" ∧
      (AudioService.connect (some (umiBroken 0)) AudioService.start "AMIXER" "ALSA").1
        = Response.halError ∧
      (AudioService.connect (some (umiBroken 0)) AudioService.start
        "AMIXER" "ALSA").2.mConnections = AudioService.start.mConnections :=
  have habsent : ¬ AudioService.start.hasConnection "AMIXER" "ALSA" := by
    rintro ⟨c, hc, _⟩
    exact absurd hc (List.not_mem_nil c)
  ⟨habsent, by decide,
    (connect_failure_restores_when_absent (some (umiBroken 0)) AudioService.start
      "AMIXER" "ALSA").1 habsent (by decide)⟩

/-- C3: in every reachable registry state there is at most one connection per
source and sink; and any number n ≥ 1 of successful `connect` calls in a row for
one valid source and sink leaves exactly one entry for it. -/
theorem registry_unique_per_pair (umi : Option umiClient) (s : AudioService)
    (hreach : AudioService.Reachable umi s) :
    (∀ source sink, s.entriesFor source sink ≤ 1) ∧
      ∀ source sink n, isValidSource source = true → isValidSink sink = true → 1 ≤ n →
        (∀ r ∈ (AudioService.connectN umi source sink n s).1, r.isSuccess = true) →
        (AudioService.connectN umi source sink n s).2.entriesFor source sink = 1 := by
  have hw := reachable_wellFormed umi s hreach
  refine ⟨fun a b => countP_le_one_of_pairwise _ a b hw.1, ?_⟩
  intro a b n ha hb hn hall
  exact connectN_entries umi a b ha hb n s hw hn hall

/-- C3, at a concrete input: three successful `connect` calls in a row on the
empty registry. -/
theorem registry_unique_per_pair_witness :
    AudioService.Reachable (some (umiReliable 0)) AudioService.start ∧
      (∀ r ∈ (AudioService.connectN (some (umiReliable 0)) "AMIXER" "ALSA" 3
        AudioService.start).1, r.isSuccess = true) ∧
      (AudioService.connectN (some (umiReliable 0)) "AMIXER" "ALSA" 3
        AudioService.start).2.entriesFor "AMIXER" "ALSA" = 1 :=
  ⟨AudioService.Reachable.empty [], by decide,
    (registry_unique_per_pair (some (umiReliable 0)) AudioService.start
      (AudioService.Reachable.empty [])).2 "AMIXER" "ALSA" 3 (by decide) (by decide)
      (by decide) (by decide)⟩

/-! ## Disconnect, mute and sound-output routing -/

theorem doDisconnectAudio_fst (umi : Option umiClient) (log : List HalCall)
    (c : AudioConnection) :
    ¬ ((doDisconnectAudio umi log c).1 = UMI_ERROR.NONE) ↔
      halFails umi log (HalCall.disconnectInput c.audioResourceId) := by
  rw [halFails_iff]
  rfl

/-- C4: in a reachable registry state that holds an entry for the source and
sink, `disconnect` leaves a registry with exactly one entry fewer, without an
entry for this source and sink and with every other entry unchanged and in
order, whatever the HAL answers; the response is the HAL error exactly when the
HAL disconnect-input call failed (or the HAL pointer is null).  When no entry
matches, the response is the not-connected error and the state, HAL call
history included, is unchanged. -/
theorem disconnect_removes_entry (umi : Option umiClient) (s : AudioService)
    (source sink : String) (hreach : AudioService.Reachable umi s) :
    (s.hasConnection source sink →
        (AudioService.disconnect umi s source sink).2.mConnections.length + 1
          = s.mConnections.length ∧
        ¬ (AudioService.disconnect umi s source sink).2.hasConnection source sink ∧
        (AudioService.disconnect umi s source sink).2.mConnections =
          s.mConnections.filter (fun c => !decide (c.source = source ∧ c.sink = sink)) ∧
        ((AudioService.disconnect umi s source sink).1 = Response.halError ↔
          halFails umi s.halLog (HalCall.disconnectInput UMI_AUDIO_RESOURCE_T.MIXER0)) ∧
        ((AudioService.disconnect umi s source sink).1 ≠ Response.halError →
          (AudioService.disconnect umi s source sink).1 =
            Response.ok [("returnValue", JValue.bool true), ("source", JValue.str source),
              ("sink", JValue.str sink)])) ∧
      (¬ s.hasConnection source sink →
        AudioService.disconnect umi s source sink =
          (Response.error ErrorText.errorAudioNotConnected
            ErrorCode.API_ERROR_AUDIO_NOT_CONNECTED, s)) := by
  have hw := reachable_wellFormed umi s hreach
  constructor
  · intro hhas
    have hhas2 := hhas
    rw [hasConnection_iff_find] at hhas2
    obtain ⟨i, hi⟩ := hhas2
    refine ⟨?_, ?_, ?_, ?_⟩
    · rw [disconnect_mConnections]
      exact removeAudioConnection_length _ source sink hhas
    · rw [AudioService.hasConnection, disconnect_mConnections]
      rintro ⟨c, hc, hm⟩
      exact removeAudioConnection_no_entry _ source sink hw.1 c hc hm
    · rw [disconnect_mConnections]
      exact removeAudioConnection_filter _ source sink hw.1
    · have hid : (connectionAt s.mConnections i).audioResourceId
          = UMI_AUDIO_RESOURCE_T.MIXER0 :=
        hw.2 _ (findAudioConnection_some_mem _ source sink i hi)
      have hd := doDisconnectAudio_fst umi s.halLog (connectionAt s.mConnections i)
      rw [hid] at hd
      unfold AudioService.disconnect
      rw [hi]
      simp only
      by_cases hc : (doDisconnectAudio umi s.halLog (connectionAt s.mConnections i)).1
          = UMI_ERROR.NONE
      · rw [if_pos hc]
        refine ⟨⟨fun h => absurd h (by simp [Response.halError]), fun h => ?_⟩, fun _ => rfl⟩
        exact absurd hc (hd.2 h)
      · rw [if_neg hc]
        exact ⟨⟨fun _ => hd.1 hc, fun _ => rfl⟩, fun h => absurd rfl h⟩
  · intro hno
    rw [hasConnection_iff_find] at hno
    unfold AudioService.disconnect
    cases hf : findAudioConnection s.mConnections source sink with
    | none => rfl
    | some i => exact absurd ⟨i, hf⟩ hno

/-- C4, at a concrete input: the registry holds the connection AMIXER to ALSA
and the HAL fails the disconnect-input call. -/
theorem disconnect_removes_entry_witness :
    AudioService.Reachable (some umiFirstOnly) AudioService.connected ∧
      AudioService.connected.hasConnection "AMIXER" "ALSA" ∧
      (AudioService.disconnect (some umiFirstOnly) AudioService.connected
        "AMIXER" "ALSA").2.mConnections.length + 1 = AudioService.connected.mConnections.length ∧
      ¬ (AudioService.disconnect (some umiFirstOnly) AudioService.connected
        "AMIXER" "ALSA").2.hasConnection "AMIXER" "ALSA" :=
  have hr : AudioService.Reachable (some umiFirstOnly) AudioService.connected :=
    (by decide : (AudioService.connect (some umiFirstOnly) AudioService.start
        "AMIXER" "ALSA").2 = AudioService.connected) ▸
      AudioService.Reachable.connect "AMIXER" "ALSA" (AudioService.Reachable.empty [])
  have hh : AudioService.connected.hasConnection "AMIXER" "ALSA" :=
    ⟨_, List.mem_singleton.2 rfl, by decide⟩
  ⟨hr, hh,
    ((disconnect_removes_entry (some umiFirstOnly) AudioService.connected
      "AMIXER" "ALSA" hr).1 hh).1,
    ((disconnect_removes_entry (some umiFirstOnly) AudioService.connected
      "AMIXER" "ALSA" hr).1 hh).2.1⟩

theorem setMuteCalls_append (log : List HalCall) (id : UMI_AUDIO_RESOURCE_T) (m : Bool) :
    setMuteCalls (log ++ [HalCall.setMute id m]) = setMuteCalls log + 1 := by
  simp [setMuteCalls, List.countP_append]

theorem doMuteAudio_log (umi : Option umiClient) (log : List HalCall)
    (c : AudioConnection) (m : Bool) :
    setMuteCalls (doMuteAudio umi log c m).2.2 ≤ setMuteCalls log + 1 := by
  unfold doMuteAudio
  split
  · simp
  · cases umi with
    | none => simp
    | some u =>
      simp only [umiClient.call]
      split <;> simp [setMuteCalls_append]

theorem doMuteAudio_true (umi : Option umiClient) (log : List HalCall)
    (c : AudioConnection) (m : Bool) (h : (doMuteAudio umi log c m).1 = true) :
    (doMuteAudio umi log c m).2.1.muted = m := by
  unfold doMuteAudio at h ⊢
  split
  · next hm => exact hm
  · next hm =>
    rw [if_neg hm] at h
    cases umi with
    | none => simp at h
    | some u =>
      simp only at h ⊢
      split
      · next hc => rw [if_pos hc] at h; simp at h
      · rfl

theorem doMuteAudio_same_muted (umi : Option umiClient) (log : List HalCall)
    (c : AudioConnection) (m : Bool) (h : c.muted = m) :
    doMuteAudio umi log c m = (true, c, log) := by
  unfold doMuteAudio
  rw [if_pos h]

theorem doMuteAudio_source_sink (umi : Option umiClient) (log : List HalCall)
    (c : AudioConnection) (m : Bool) :
    (doMuteAudio umi log c m).2.1.source = c.source ∧
      (doMuteAudio umi log c m).2.1.sink = c.sink := by
  rcases doMuteAudio_connection umi log c m with h | h <;> rw [h] <;> exact ⟨rfl, rfl⟩

theorem findAudioConnection_set (cs : List AudioConnection) (a b : String) (i : Nat)
    (c : AudioConnection) (hf : findAudioConnection cs a b = some i)
    (hs : c.source = a) (hk : c.sink = b) :
    findAudioConnection (cs.set i c) a b = some i ∧ connectionAt (cs.set i c) i = c := by
  induction cs generalizing i with
  | nil => simp [findAudioConnection] at hf
  | cons d rest ih =>
    by_cases hd : d.source = a ∧ d.sink = b
    · simp only [findAudioConnection, hd, and_self, if_true, Option.some.injEq] at hf
      subst hf
      simp [findAudioConnection, connectionAt, hs, hk]
    · simp only [findAudioConnection, hd, if_false, Option.map_eq_some'] at hf
      obtain ⟨j, hj, rfl⟩ := hf
      have := ih j hj
      simp only [List.set_cons_succ, findAudioConnection, hd, if_false, this.1, Option.map_some',
        true_and]
      simpa [connectionAt] using this.2

theorem mute_log_le (umi : Option umiClient) (s : AudioService) (a b : String) (m : Bool) :
    setMuteCalls (AudioService.mute umi s a b m).2.halLog ≤ setMuteCalls s.halLog + 1 := by
  unfold AudioService.mute
  cases hf : findAudioConnection s.mConnections a b with
  | none => simp
  | some i =>
    simp only
    split <;> exact doMuteAudio_log umi s.halLog _ m

theorem mute_second_silent (umi : Option umiClient) (s : AudioService) (a b : String)
    (m : Bool) (h : (AudioService.mute umi s a b m).1 ≠ Response.halError) :
    (AudioService.mute umi (AudioService.mute umi s a b m).2 a b m).2.halLog
      = (AudioService.mute umi s a b m).2.halLog := by
  cases hf : findAudioConnection s.mConnections a b with
  | none =>
    have h1 : AudioService.mute umi s a b m =
        (Response.error ErrorText.errorAudioNotConnected
          ErrorCode.API_ERROR_AUDIO_NOT_CONNECTED, s) := by
      unfold AudioService.mute; rw [hf]
    rw [h1]
    simp only
    rw [h1]
  | some i =>
    have hss := doMuteAudio_source_sink umi s.halLog (connectionAt s.mConnections i) m
    have hfs := findAudioConnection_some _ a b i hf
    have hdone : (doMuteAudio umi s.halLog (connectionAt s.mConnections i) m).1 = true := by
      by_contra hd
      apply h
      unfold AudioService.mute
      rw [hf]
      simp only
      rw [if_pos (by simpa using hd)]
    have h1 : (AudioService.mute umi s a b m).2 =
        { mConnections := s.mConnections.set i
            (doMuteAudio umi s.halLog (connectionAt s.mConnections i) m).2.1,
          halLog := (doMuteAudio umi s.halLog (connectionAt s.mConnections i) m).2.2 } := by
      unfold AudioService.mute
      rw [hf]
      simp only
      split <;> rfl
    rw [h1]
    have hset := findAudioConnection_set s.mConnections a b i
      (doMuteAudio umi s.halLog (connectionAt s.mConnections i) m).2.1 hf
      (hss.1.trans hfs.2.1) (hss.2.trans hfs.2.2)
    unfold AudioService.mute
    simp only [hset.1, hset.2]
    rw [doMuteAudio_same_muted _ _ _ _ (doMuteAudio_true umi s.halLog _ m hdone)]
    simp

/-- C5, as stated, fails: the registry holds the unmuted connection AMIXER to
ALSA, the HAL fails every `setMute`, and two `mute(true)` calls in a row issue
two HAL `setMute` calls. -/
theorem mute_twice_counterexample :
    ¬ AudioService.muteTwiceAtMostOneHalCall (some umiMuteBroken) AudioService.connected
        "AMIXER" "ALSA" true := by
  unfold AudioService.muteTwiceAtMostOneHalCall
  decide

/-- C10: `setSoundOut` with a name that resolves to a HAL sound output and a HAL
call that succeeds answers with success and stamps the name as `outputMode` on
every connection, keeping the number and order of the connections and their
other fields (also for the empty registry); with a name that does not resolve it
answers with the not-implemented error and changes nothing; with a HAL call that
fails (or a null HAL pointer) it answers with the HAL error and leaves every
connection as it was. -/
theorem setSoundOut_outcome (umi : Option umiClient) (s : AudioService) (soundOut : String) :
    (getSoundOutResourceId soundOut ≠ UMI_AUDIO_SNDOUT_T.NO_OUTPUT →
        halSucceeds umi s.halLog (HalCall.setSoundOutput (getSoundOutResourceId soundOut)) →
        (AudioService.setSoundOut umi s soundOut).1 =
          Response.ok [("returnValue", JValue.bool true), ("soundOut", JValue.str soundOut)] ∧
        (AudioService.setSoundOut umi s soundOut).2.mConnections.length
          = s.mConnections.length ∧
        ∀ (i : Nat) (c : AudioConnection), s.mConnections[i]? = some c →
          (AudioService.setSoundOut umi s soundOut).2.mConnections[i]? =
            some (AudioConnection.mk c.source c.sink soundOut c.muted c.audioResourceId)) ∧
      (getSoundOutResourceId soundOut = UMI_AUDIO_SNDOUT_T.NO_OUTPUT →
        AudioService.setSoundOut umi s soundOut =
          (Response.error ErrorText.errorNotImplemented ErrorCode.API_ERROR_NOT_IMPLEMENTED,
            s)) ∧
      (getSoundOutResourceId soundOut ≠ UMI_AUDIO_SNDOUT_T.NO_OUTPUT →
        halFails umi s.halLog (HalCall.setSoundOutput (getSoundOutResourceId soundOut)) →
        (AudioService.setSoundOut umi s soundOut).1 = Response.halError ∧
        (AudioService.setSoundOut umi s soundOut).2.mConnections = s.mConnections) := by
  refine ⟨?_, ?_, ?_⟩
  · rintro hres ⟨u, rfl, hu⟩
    unfold AudioService.setSoundOut
    rw [if_neg (fun h => hres h.symm)]
    simp only [umiClient.call, hu, if_true, List.length_map, true_and]
    intro i c hc
    simp [hc]
  · intro hres
    unfold AudioService.setSoundOut
    rw [if_pos hres.symm]
  · intro hres hfail
    unfold AudioService.setSoundOut
    rw [if_neg (fun h => hres h.symm)]
    cases umi with
    | none => exact ⟨rfl, rfl⟩
    | some u =>
      have := hfail u rfl
      simp only [umiClient.call, this, if_false, and_self]

/-- C10, at a concrete input: `setSoundOut("alsa")` with a HAL that succeeds,
on the registry that holds the connection AMIXER to ALSA. -/
theorem setSoundOut_outcome_witness :
    getSoundOutResourceId "alsa" ≠ UMI_AUDIO_SNDOUT_T.NO_OUTPUT ∧
      (AudioService.setSoundOut (some (umiReliable 0)) AudioService.connected "alsa").1 =
        Response.ok [("returnValue", JValue.bool true), ("soundOut", JValue.str "alsa")] ∧
      (AudioService.setSoundOut (some (umiReliable 0)) AudioService.connected
        "alsa").2.mConnections.length = AudioService.connected.mConnections.length :=
  ⟨by decide,
    ((setSoundOut_outcome (some (umiReliable 0)) AudioService.connected "alsa").1
      (by decide) ⟨umiReliable 0, rfl, rfl⟩).1,
    ((setSoundOut_outcome (some (umiReliable 0)) AudioService.connected "alsa").1
      (by decide) ⟨umiReliable 0, rfl, rfl⟩).2.1⟩

/-! ## The volume service -/

theorem toInt8_of_fits (v : Int) (h1 : -128 ≤ v) (h2 : v ≤ 127) : toInt8 v = v := by
  unfold toInt8
  rw [Int.emod_eq_of_lt (by omega) (by omega)]
  omega

theorem findOutput_eq_none_iff (outputs : List (String × AudioOutput)) (name : String) :
    findOutput outputs name = none ↔ ∀ e ∈ outputs, e.1 ≠ name := by
  induction outputs with
  | nil => simp [findOutput]
  | cons e rest ih =>
    by_cases h : e.1 = name
    · simp [findOutput, h]
    · simp only [findOutput, h, if_false, Option.map_eq_none', ih, List.mem_cons,
        forall_eq_or_imp, ne_eq, not_false_eq_true, true_and]

theorem findOutput_of_unknown (s : VolumeService) (name : String)
    (h : ¬ s.knowsOutput name) : findOutput s.mOutputs name = none := by
  rw [findOutput_eq_none_iff]
  intro e he hn
  exact h ⟨e, he, hn⟩

theorem setVolume_controller (umi : Option umiClient) (log : List HalCall)
    (c : IVolumeController) (level : Int) :
    (IVolumeController.setVolume umi log c level).2.1 = c ∨
      (IVolumeController.setVolume umi log c level).2.1 = { c with mVolume := level } := by
  unfold IVolumeController.setVolume
  split
  · right; rfl
  · left; rfl

theorem setMute_controller (umi : Option umiClient) (log : List HalCall)
    (c : IVolumeController) (flag : Bool) :
    (IVolumeController.setMute umi log c flag).2.1 = c ∨
      (IVolumeController.setMute umi log c flag).2.1 = { c with mMuted := flag } := by
  unfold IVolumeController.setMute
  split
  · right; rfl
  · left; rfl

theorem controllerSetVolume_mVolume (umi : Option umiClient) (s : VolumeService)
    (target : ControllerRef) (level : Int) :
    (VolumeService.controllerSetVolume umi s target level).2.mAmixer.mVolume = s.mAmixer.mVolume ∨
      (VolumeService.controllerSetVolume umi s target level).2.mAmixer.mVolume = level := by
  cases target
  unfold VolumeService.controllerSetVolume
  rcases setVolume_controller umi s.halLog s.mAmixer level with h | h
  · left; simp only [h]
  · right; simp only [h]

theorem controllerSetMute_mVolume (umi : Option umiClient) (s : VolumeService)
    (target : ControllerRef) (flag : Bool) :
    (VolumeService.controllerSetMute umi s target flag).2.mAmixer.mVolume
      = s.mAmixer.mVolume := by
  cases target
  unfold VolumeService.controllerSetMute
  rcases setMute_controller umi s.halLog s.mAmixer flag with h | h <;> simp only [h]

theorem create_mVolume (u : umiClient) (log : List HalCall) (s : VolumeService)
    (h : VolumeService.create (some u) log = some s) :
    s.mAmixer.mVolume = u.defaultVolume log := by
  simp only [VolumeService.create, Option.some.injEq] at h
  subst h
  simp [VolumeService.members, applyInitialVolumes, outputAt, IVolumeController.init]

theorem set_mVolume (MIN_VOLUME MAX_VOLUME : Int) (umi : Option umiClient) (s : VolumeService)
    (name : String) (volume : Int)
    (h : MIN_VOLUME ≤ s.mAmixer.mVolume ∧ s.mAmixer.mVolume ≤ MAX_VOLUME) :
    MIN_VOLUME ≤ (VolumeService.set MIN_VOLUME MAX_VOLUME umi s name volume).2.mAmixer.mVolume ∧
      (VolumeService.set MIN_VOLUME MAX_VOLUME umi s name volume).2.mAmixer.mVolume
        ≤ MAX_VOLUME := by
  unfold VolumeService.set
  simp only
  split
  · exact h
  · next hr =>
    cases hf : findOutput s.mOutputs name with
    | none => exact h
    | some i =>
      simp only
      have hcases := controllerSetVolume_mVolume umi s
        (outputAt s.mOutputs i).volumeController (toInt8 volume)
      split <;> rcases hcases with e | e <;> rw [e] <;> first | exact h | omega

theorem up_mVolume (MIN_VOLUME MAX_VOLUME : Int) (umi : Option umiClient) (s : VolumeService)
    (name : String)
    (h : MIN_VOLUME ≤ s.mAmixer.mVolume ∧ s.mAmixer.mVolume ≤ MAX_VOLUME) :
    MIN_VOLUME ≤ (VolumeService.up MAX_VOLUME umi s name).2.mAmixer.mVolume ∧
      (VolumeService.up MAX_VOLUME umi s name).2.mAmixer.mVolume ≤ MAX_VOLUME := by
  unfold VolumeService.up
  cases hf : findOutput s.mOutputs name with
  | none => exact h
  | some i =>
    simp only
    have hc : (s.controller (outputAt s.mOutputs i).volumeController).getVolume
        = s.mAmixer.mVolume := by
      cases (outputAt s.mOutputs i).volumeController; rfl
    rw [hc]
    split
    · exact h
    · next hne =>
      have hcases := controllerSetVolume_mVolume umi s
        (outputAt s.mOutputs i).volumeController (s.mAmixer.mVolume + 1)
      split <;> rcases hcases with e | e <;> rw [e] <;> first | exact h | omega

theorem down_mVolume (MIN_VOLUME MAX_VOLUME : Int) (umi : Option umiClient) (s : VolumeService)
    (name : String)
    (h : MIN_VOLUME ≤ s.mAmixer.mVolume ∧ s.mAmixer.mVolume ≤ MAX_VOLUME) :
    MIN_VOLUME ≤ (VolumeService.down MIN_VOLUME umi s name).2.mAmixer.mVolume ∧
      (VolumeService.down MIN_VOLUME umi s name).2.mAmixer.mVolume ≤ MAX_VOLUME := by
  unfold VolumeService.down
  cases hf : findOutput s.mOutputs name with
  | none => exact h
  | some i =>
    simp only
    have hc : (s.controller (outputAt s.mOutputs i).volumeController).getVolume
        = s.mAmixer.mVolume := by
      cases (outputAt s.mOutputs i).volumeController; rfl
    rw [hc]
    split
    · exact h
    · next hne =>
      have hcases := controllerSetVolume_mVolume umi s
        (outputAt s.mOutputs i).volumeController (s.mAmixer.mVolume - 1)
      split <;> rcases hcases with e | e <;> rw [e] <;> first | exact h | omega

theorem muteSoundOut_mVolume (umi : Option umiClient) (s : VolumeService)
    (name : String) (flag : Bool) :
    (VolumeService.muteSoundOut umi s name flag).2.mAmixer.mVolume = s.mAmixer.mVolume := by
  unfold VolumeService.muteSoundOut
  cases hf : findOutput s.mOutputs name with
  | none => rfl
  | some i =>
    simp only
    split
    · split
      · exact controllerSetMute_mVolume umi s (outputAt s.mOutputs i).volumeController flag
      · exact controllerSetMute_mVolume umi s (outputAt s.mOutputs i).volumeController flag
    · rfl

theorem reachable_mVolume (MIN_VOLUME MAX_VOLUME : Int) (umi : Option umiClient)
    (s : VolumeService)
    (hdefault : ∀ u, umi = some u →
      ∀ log, MIN_VOLUME ≤ u.defaultVolume log ∧ u.defaultVolume log ≤ MAX_VOLUME)
    (hreach : VolumeService.Reachable MIN_VOLUME MAX_VOLUME umi s) :
    MIN_VOLUME ≤ s.mAmixer.mVolume ∧ s.mAmixer.mVolume ≤ MAX_VOLUME := by
  induction hreach with
  | create log s hc =>
    cases umi with
    | none => simp [VolumeService.create] at hc
    | some u =>
      rw [create_mVolume u log s hc]
      exact hdefault u rfl log
  | set name volume _ ih => exact set_mVolume MIN_VOLUME MAX_VOLUME umi _ name volume ih
  | up name _ ih => exact up_mVolume MIN_VOLUME MAX_VOLUME umi _ name ih
  | down name _ ih => exact down_mVolume MIN_VOLUME MAX_VOLUME umi _ name ih
  | muteSoundOut name flag _ ih => rw [muteSoundOut_mVolume]; exact ih
  | foreignCall c _ ih => exact ih

/-- C6: `set` narrows the requested level to 8 bits before the range check.
With the range [0, 100], the output "alsa" at volume 30 and a HAL that succeeds,
the request `set("alsa", 306)` has a level outside the range, yet it is answered
with success and level 50, the controller is called with 50, and the volume
changes from 30 to 50. -/
theorem set_accepts_wrapped_level :
    ¬ (0 ≤ (306 : Int) ∧ (306 : Int) ≤ 100) ∧
      (VolumeService.set 0 100 (some (umiReliable 30)) (VolumeService.fresh 30) "alsa" 306).1
        = Response.ok [("returnValue", JValue.bool true), ("soundOutput", JValue.str "alsa"),
            ("volume", JValue.num 50)] ∧
      (VolumeService.set 0 100 (some (umiReliable 30)) (VolumeService.fresh 30)
        "alsa" 306).2.controllerLog = [ControllerCall.setVolume ControllerRef.mAmixer 50] ∧
      (VolumeService.fresh 30).volumeOf "alsa" = some 30 ∧
      (VolumeService.set 0 100 (some (umiReliable 30)) (VolumeService.fresh 30)
        "alsa" 306).2.volumeOf "alsa" = some 50 := by
  decide

/-- C7, as stated, fails: with the range [0, 100] and a HAL whose default volume
is 120, the state right after construction has an output at volume 120. -/
theorem volumes_in_range_counterexample :
    ¬ ∀ s, VolumeService.Reachable 0 100 (some (umiReliable 120)) s →
        VolumeService.volumesInRange 0 100 s := by
  intro h
  have h1 := h (VolumeService.fresh 120) (VolumeService.Reachable.create [] _ (by decide))
  revert h1
  unfold VolumeService.volumesInRange
  decide

/-- C7, amended: when the default volume reported by the HAL lies in
`[MIN_VOLUME, MAX_VOLUME]`, the volume of every output lies in that range in
every state reachable from construction by `set`, `up`, `down` and
`muteSoundOut` requests with arbitrary HAL outcomes. -/
theorem volumes_in_range_of_default_in_range (MIN_VOLUME MAX_VOLUME : Int)
    (umi : Option umiClient) (s : VolumeService)
    (hdefault : ∀ u, umi = some u →
      ∀ log, MIN_VOLUME ≤ u.defaultVolume log ∧ u.defaultVolume log ≤ MAX_VOLUME)
    (hreach : VolumeService.Reachable MIN_VOLUME MAX_VOLUME umi s) :
    VolumeService.volumesInRange MIN_VOLUME MAX_VOLUME s := by
  intro e _
  have h := reachable_mVolume MIN_VOLUME MAX_VOLUME umi s hdefault hreach
  cases e.2.volumeController
  exact h

/-- C7 amended, at a concrete input: range [0, 100], default volume 100, and
the state after construction followed by `up("alsa")`. -/
theorem volumes_in_range_of_default_in_range_witness :
    VolumeService.Reachable 0 100 (some (umiReliable 100))
        (VolumeService.up 100 (some (umiReliable 100)) (VolumeService.fresh 100) "alsa").2 ∧
      VolumeService.volumesInRange 0 100
        (VolumeService.up 100 (some (umiReliable 100)) (VolumeService.fresh 100) "alsa").2 :=
  have hr : VolumeService.Reachable 0 100 (some (umiReliable 100))
      (VolumeService.up 100 (some (umiReliable 100)) (VolumeService.fresh 100) "alsa").2 :=
    VolumeService.Reachable.up "alsa" (VolumeService.Reachable.create [] _ (by decide))
  ⟨hr, volumes_in_range_of_default_in_range 0 100 (some (umiReliable 100)) _
    (fun u hu _ => by
      cases hu
      exact ⟨show (0 : Int) ≤ 100 by decide, show (100 : Int) ≤ 100 by decide⟩) hr⟩

/-- C8, as stated, fails: with the range [0, 100], `set("hdmi", 150)` on a
registry that only knows "alsa" is answered with the volume-limit error, not
with the unknown-output error. -/
theorem unknown_output_set_counterexample :
    ¬ VolumeService.setUnknownOutputFails 0 100 (some (umiReliable 30))
        (VolumeService.fresh 30) "hdmi" 150 := by
  unfold VolumeService.setUnknownOutputFails VolumeService.knowsOutput
  decide

/-- C8, amended: for an output name that the registry does not know and a
requested level that fits the 8-bit level variable of the handler, `set` fails
with the unknown-output error when the level lies in `[MIN_VOLUME, MAX_VOLUME]`
and with the volume-limit error when it does not (the range check comes
first); the state is unchanged in both cases. -/
theorem set_unknown_output (MIN_VOLUME MAX_VOLUME : Int) (umi : Option umiClient)
    (s : VolumeService) (name : String) (volume : Int)
    (hunknown : ¬ s.knowsOutput name) (hfits : -128 ≤ volume ∧ volume ≤ 127) :
    (MIN_VOLUME ≤ volume ∧ volume ≤ MAX_VOLUME →
        VolumeService.set MIN_VOLUME MAX_VOLUME umi s name volume =
          (Response.error ErrorText.errorInvalidVolumeControl
            ErrorCode.API_ERROR_INVALID_VOLUME_CONTROL, s)) ∧
      (¬ (MIN_VOLUME ≤ volume ∧ volume ≤ MAX_VOLUME) →
        VolumeService.set MIN_VOLUME MAX_VOLUME umi s name volume =
          (Response.error ErrorText.errorVolumeLimit ErrorCode.API_ERROR_VOLUME_LIMIT, s)) := by
  unfold VolumeService.set
  simp only [toInt8_of_fits volume hfits.1 hfits.2, findOutput_of_unknown s name hunknown]
  constructor
  · intro h
    rw [if_neg (by omega)]
  · intro h
    rw [if_pos (by omega)]

/-- C8 amended, at a concrete input: range [0, 100], `set("hdmi", 50)` on a
registry that only knows "alsa". -/
theorem set_unknown_output_witness :
    ¬ (VolumeService.fresh 30).knowsOutput "hdmi" ∧
      VolumeService.set 0 100 (some (umiReliable 30)) (VolumeService.fresh 30) "hdmi" 50 =
        (Response.error ErrorText.errorInvalidVolumeControl
          ErrorCode.API_ERROR_INVALID_VOLUME_CONTROL, VolumeService.fresh 30) :=
  have hu : ¬ (VolumeService.fresh 30).knowsOutput "hdmi" := by
    unfold VolumeService.knowsOutput
    decide
  ⟨hu, (set_unknown_output 0 100 (some (umiReliable 30)) (VolumeService.fresh 30) "hdmi" 50
    hu (by decide)).1 (by decide)⟩

theorem set_connectionAt (cs : List AudioConnection) (i : Nat) :
    cs.set i (connectionAt cs i) = cs := by
  induction cs generalizing i with
  | nil => simp
  | cons d rest ih =>
    cases i with
    | zero => simp [connectionAt]
    | succ j =>
      simp only [List.set_cons_succ, List.cons.injEq, true_and]
      simpa [connectionAt] using ih j

theorem connectionAt_set (cs : List AudioConnection) (i : Nat) (c : AudioConnection)
    (h : i < cs.length) : connectionAt (cs.set i c) i = c := by
  induction cs generalizing i with
  | nil => simp at h
  | cons d rest ih =>
    cases i with
    | zero => simp [connectionAt]
    | succ j =>
      have := ih j (by simpa using h)
      simpa [connectionAt] using this

theorem findAudioConnection_lt (cs : List AudioConnection) (a b : String) (i : Nat)
    (h : findAudioConnection cs a b = some i) : i < cs.length := by
  have h1 := (findAudioConnection_some cs a b i h).1
  by_contra hn
  rw [List.getElem?_eq_none (by omega)] at h1
  exact absurd h1 (by simp)

/-- C11: connection `mute(source, sink, flag)`: without a matching entry the
response is the not-connected error and the state, HAL call history included,
is unchanged; with a matching entry whose `muted` differs from the flag, a HAL
`setMute` that succeeds makes `muted` of that entry equal to the flag, and a HAL
`setMute` that fails (or a null HAL pointer) gives the HAL error and leaves the
registry as it was; in every case the registry afterwards is the registry
before, or the registry before with only `muted` of the matched entry replaced
by the flag. -/
theorem mute_outcome (umi : Option umiClient) (s : AudioService) (source sink : String)
    (flag : Bool) :
    (¬ s.hasConnection source sink →
        AudioService.mute umi s source sink flag =
          (Response.error ErrorText.errorAudioNotConnected
            ErrorCode.API_ERROR_AUDIO_NOT_CONNECTED, s)) ∧
      (∀ i, findAudioConnection s.mConnections source sink = some i →
        (connectionAt s.mConnections i).muted ≠ flag →
        (halSucceeds umi s.halLog
            (HalCall.setMute (connectionAt s.mConnections i).audioResourceId flag) →
          (AudioService.mute umi s source sink flag).1 =
            Response.ok [("returnValue", JValue.bool true), ("sink", JValue.str sink),
              ("source", JValue.str source), ("mute", JValue.bool flag)] ∧
          (connectionAt (AudioService.mute umi s source sink flag).2.mConnections i).muted
            = flag ∧
          (AudioService.mute umi s source sink flag).2.mConnections =
            s.mConnections.set i
              (AudioConnection.mk (connectionAt s.mConnections i).source
                (connectionAt s.mConnections i).sink
                (connectionAt s.mConnections i).outputMode flag
                (connectionAt s.mConnections i).audioResourceId)) ∧
        (halFails umi s.halLog
            (HalCall.setMute (connectionAt s.mConnections i).audioResourceId flag) →
          (AudioService.mute umi s source sink flag).1 = Response.halError ∧
          (AudioService.mute umi s source sink flag).2.mConnections = s.mConnections)) ∧
      (∀ i, findAudioConnection s.mConnections source sink = some i →
        (AudioService.mute umi s source sink flag).2.mConnections = s.mConnections ∨
        (AudioService.mute umi s source sink flag).2.mConnections =
          s.mConnections.set i
            (AudioConnection.mk (connectionAt s.mConnections i).source
              (connectionAt s.mConnections i).sink
              (connectionAt s.mConnections i).outputMode flag
              (connectionAt s.mConnections i).audioResourceId)) := by
  refine ⟨?_, ?_, ?_⟩
  · intro hno
    rw [hasConnection_iff_find] at hno
    unfold AudioService.mute
    cases hf : findAudioConnection s.mConnections source sink with
    | none => rfl
    | some i => exact absurd ⟨i, hf⟩ hno
  · intro i hf hm
    constructor
    · rintro ⟨u, rfl, hu⟩
      have hd : doMuteAudio (some u) s.halLog (connectionAt s.mConnections i) flag =
          (true, AudioConnection.mk (connectionAt s.mConnections i).source
              (connectionAt s.mConnections i).sink
              (connectionAt s.mConnections i).outputMode flag
              (connectionAt s.mConnections i).audioResourceId,
            s.halLog ++ [HalCall.setMute (connectionAt s.mConnections i).audioResourceId flag])
          := by
        unfold doMuteAudio
        rw [if_neg hm]
        simp only [umiClient.call, hu, ne_eq, not_true_eq_false, if_false]
      unfold AudioService.mute
      rw [hf]
      simp only [hd, Bool.not_true, Bool.false_eq_true, if_false, true_and]
      rw [connectionAt_set _ _ _ (findAudioConnection_lt _ source sink i hf)]
      exact ⟨rfl, trivial⟩
    · intro hfail
      have hd : (doMuteAudio umi s.halLog (connectionAt s.mConnections i) flag).1 = false ∧
          (doMuteAudio umi s.halLog (connectionAt s.mConnections i) flag).2.1
            = connectionAt s.mConnections i := by
        unfold doMuteAudio
        rw [if_neg hm]
        cases umi with
        | none => exact ⟨rfl, rfl⟩
        | some u =>
          have := hfail u rfl
          simp only [umiClient.call, ne_eq, this, not_false_eq_true, if_true, and_self]
      unfold AudioService.mute
      rw [hf]
      simp only [hd.1, hd.2, Bool.not_false, if_true, set_connectionAt, and_self]
  · intro i hf
    rcases mute_mConnections umi s source sink flag with h | ⟨j, hj, h⟩
    · left; exact h
    · rw [hf] at hj
      cases hj
      rcases doMuteAudio_connection umi s.halLog (connectionAt s.mConnections i) flag with e | e
      · left
        rw [h, e, set_connectionAt]
      · right
        rw [h, e]

/-- C11, at a concrete input: `mute("AMIXER", "ALSA", true)` on the unmuted
connection AMIXER to ALSA with a HAL that succeeds. -/
theorem mute_outcome_witness :
    findAudioConnection AudioService.connected.mConnections "AMIXER" "ALSA" = some 0 ∧
      (connectionAt AudioService.connected.mConnections 0).muted ≠ true ∧
      (AudioService.mute (some (umiReliable 0)) AudioService.connected
        "AMIXER" "ALSA" true).1 =
        Response.ok [("returnValue", JValue.bool true), ("sink", JValue.str "ALSA"),
          ("source", JValue.str "AMIXER"), ("mute", JValue.bool true)] ∧
      (connectionAt (AudioService.mute (some (umiReliable 0)) AudioService.connected
        "AMIXER" "ALSA" true).2.mConnections 0).muted = true :=
  ⟨by decide, by decide,
    (((mute_outcome (some (umiReliable 0)) AudioService.connected "AMIXER" "ALSA" true).2.1
      0 (by decide) (by decide)).1 ⟨umiReliable 0, rfl, rfl⟩).1,
    (((mute_outcome (some (umiReliable 0)) AudioService.connected "AMIXER" "ALSA" true).2.1
      0 (by decide) (by decide)).1 ⟨umiReliable 0, rfl, rfl⟩).2.1⟩

/-- C14: the connection status carries `returnValue: true` and one record per
connection of the registry, in the order of the registry; the record of a
connection holds its sink, source and muted flag, and as `outputMode` the
connection's `outputMode` when that is not empty and the string "null" when it
is empty. -/
theorem buildStatus_records (s : AudioService) :
    (AudioService.buildStatus s).1 = true ∧
      (AudioService.buildStatus s).2.length = s.mConnections.length ∧
      ∀ (i : Nat) (c : AudioConnection), s.mConnections[i]? = some c →
        (c.outputMode ≠ "" →
          (AudioService.buildStatus s).2[i]? =
            some [("sink", JValue.str c.sink), ("source", JValue.str c.source),
              ("outputMode", JValue.str c.outputMode), ("muted", JValue.bool c.muted)]) ∧
        (c.outputMode = "" →
          (AudioService.buildStatus s).2[i]? =
            some [("sink", JValue.str c.sink), ("source", JValue.str c.source),
              ("outputMode", JValue.str "null"), ("muted", JValue.bool c.muted)]) := by
  refine ⟨rfl, by simp [AudioService.buildStatus], ?_⟩
  intro i c hc
  constructor
  · intro hne
    have he : c.outputMode.isEmpty = false := by
      rw [Bool.eq_false_iff]
      intro h
      exact hne ((String.isEmpty_iff _).1 h)
    simp [AudioService.buildStatus, AudioService.buildAudioStatus, hc, he]
  · intro heq
    have he : c.outputMode.isEmpty = true := (String.isEmpty_iff _).2 heq
    simp [AudioService.buildStatus, AudioService.buildAudioStatus, hc, he]

/-- C14, at a concrete input: the status of the registry that holds the muted
connection AMIXER to ALSA routed to "alsa". -/
theorem buildStatus_records_witness :
    AudioService.routedMuted.mConnections[0]? =
        some (AudioConnection.mk "AMIXER" "ALSA" "alsa" true UMI_AUDIO_RESOURCE_T.MIXER0) ∧
      (AudioService.buildStatus AudioService.routedMuted).2[0]? =
        some [("sink", JValue.str "ALSA"), ("source", JValue.str "AMIXER"),
          ("outputMode", JValue.str "alsa"), ("muted", JValue.bool true)] :=
  ⟨rfl,
    ((buildStatus_records AudioService.routedMuted).2.2 0
      (AudioConnection.mk "AMIXER" "ALSA" "alsa" true UMI_AUDIO_RESOURCE_T.MIXER0) rfl).1
      (by decide)⟩

/-! ## Output mute -/

theorem findOutput_modify (outputs : List (String × AudioOutput)) (name : String)
    (flag : Bool) (i : Nat) :
    findOutput (List.modify (setUserMute flag) i outputs) name = findOutput outputs name := by
  induction outputs generalizing i with
  | nil => simp
  | cons e rest ih =>
    cases i with
    | zero => simp [findOutput, setUserMute]
    | succ j =>
      rw [List.modify_succ_cons]
      simp only [findOutput, ih j]

theorem findOutput_lt (outputs : List (String × AudioOutput)) (name : String) (i : Nat)
    (h : findOutput outputs name = some i) : i < outputs.length := by
  induction outputs generalizing i with
  | nil => simp [findOutput] at h
  | cons e rest ih =>
    by_cases he : e.1 = name
    · simp only [findOutput, he, if_true, Option.some.injEq] at h
      subst h
      simp
    · simp only [findOutput, he, if_false, Option.map_eq_some'] at h
      obtain ⟨j, hj, rfl⟩ := h
      have := ih j hj
      simp only [List.length_cons]
      omega

theorem outputAt_modify (outputs : List (String × AudioOutput)) (flag : Bool) (i : Nat)
    (h : i < outputs.length) :
    (outputAt (List.modify (setUserMute flag) i outputs) i).userMute = flag := by
  induction outputs generalizing i with
  | nil => simp at h
  | cons e rest ih =>
    cases i with
    | zero => simp [outputAt, setUserMute]
    | succ j =>
      have := ih j (by simpa using h)
      simpa [outputAt] using this

theorem userMuteOf_some (s : VolumeService) (name : String) (m : Bool)
    (h : s.userMuteOf name = some m) :
    ∃ i, findOutput s.mOutputs name = some i ∧ (outputAt s.mOutputs i).userMute = m := by
  unfold VolumeService.userMuteOf at h
  rw [Option.map_eq_some'] at h
  exact h

theorem controllerSetMute_fields (umi : Option umiClient) (s : VolumeService)
    (target : ControllerRef) (flag : Bool) :
    (VolumeService.controllerSetMute umi s target flag).1
        = (IVolumeController.setMute umi s.halLog s.mAmixer flag).1 ∧
      (VolumeService.controllerSetMute umi s target flag).2.mOutputs = s.mOutputs ∧
      (VolumeService.controllerSetMute umi s target flag).2.controllerLog
        = s.controllerLog ++ [ControllerCall.setMute ControllerRef.mAmixer flag] := by
  cases target
  exact ⟨rfl, rfl, rfl⟩

/-- C12: output `mute(output, flag)` on a known output whose `userMute` is `m`:
with `m` equal to the flag it succeeds, makes no call to a controller or to the
HAL and leaves `userMute` as it was; with `m` different from the flag it calls
the controller's `setMute(flag)` exactly once, and when that call returns true
it reports success and `userMute` becomes the flag, while when it returns false
it reports the HAL error and `userMute` stays `m`. -/
theorem muteSoundOut_outcome (umi : Option umiClient) (s : VolumeService) (name : String)
    (flag m : Bool) (hknown : s.userMuteOf name = some m) :
    (m = flag →
        (VolumeService.muteSoundOut umi s name flag).1 =
          Response.ok [("returnValue", JValue.bool true), ("soundOutput", JValue.str name),
            ("mute", JValue.bool flag)] ∧
        (VolumeService.muteSoundOut umi s name flag).2.controllerLog = s.controllerLog ∧
        (VolumeService.muteSoundOut umi s name flag).2.halLog = s.halLog ∧
        (VolumeService.muteSoundOut umi s name flag).2.mAmixer = s.mAmixer ∧
        (VolumeService.muteSoundOut umi s name flag).2.userMuteOf name = some m) ∧
      (m ≠ flag →
        (VolumeService.muteSoundOut umi s name flag).2.controllerLog =
          s.controllerLog ++ [ControllerCall.setMute ControllerRef.mAmixer flag] ∧
        ((IVolumeController.setMute umi s.halLog s.mAmixer flag).1 = true →
          (VolumeService.muteSoundOut umi s name flag).1 =
            Response.ok [("returnValue", JValue.bool true), ("soundOutput", JValue.str name),
              ("mute", JValue.bool flag)] ∧
          (VolumeService.muteSoundOut umi s name flag).2.userMuteOf name = some flag) ∧
        ((IVolumeController.setMute umi s.halLog s.mAmixer flag).1 = false →
          (VolumeService.muteSoundOut umi s name flag).1 = Response.halError ∧
          (VolumeService.muteSoundOut umi s name flag).2.userMuteOf name = some m)) := by
  obtain ⟨i, hf, hm⟩ := userMuteOf_some s name m hknown
  have hlt := findOutput_lt s.mOutputs name i hf
  have hc := controllerSetMute_fields umi s (outputAt s.mOutputs i).volumeController flag
  constructor
  · intro heq
    subst heq
    unfold VolumeService.muteSoundOut
    rw [hf]
    simp only [hm, ne_eq, not_true_eq_false, if_false, true_and]
    unfold VolumeService.userMuteOf
    simp only [findOutput_modify, hf, Option.map_some', outputAt_modify _ _ _ hlt]
  · intro hne
    unfold VolumeService.muteSoundOut
    rw [hf]
    simp only [hm, ne_eq, hne, not_false_eq_true, if_true]
    refine ⟨?_, ?_, ?_⟩
    · split
      · exact hc.2.2
      · exact hc.2.2
    · intro hok
      rw [hc.1, hok]
      simp only [Bool.not_true, Bool.false_eq_true, if_false, true_and]
      unfold VolumeService.userMuteOf
      simp only [findOutput_modify, hc.2.1, hf, Option.map_some', outputAt_modify _ _ _ hlt]
    · intro hko
      rw [hc.1, hko]
      simp only [Bool.not_false, if_true, true_and]
      unfold VolumeService.userMuteOf
      simp only [hc.2.1, hf, Option.map_some', hm]

/-- C12, at concrete inputs: on the unmuted output "alsa", `mute("alsa", false)`
succeeds without a controller call, and `mute("alsa", true)` with a HAL that
fails reports the HAL error and leaves `userMute` false. -/
theorem muteSoundOut_outcome_witness :
    (VolumeService.fresh 30).userMuteOf "alsa" = some false ∧
      (VolumeService.muteSoundOut (some (umiBroken 30)) (VolumeService.fresh 30)
        "alsa" false).2.controllerLog = (VolumeService.fresh 30).controllerLog ∧
      (VolumeService.muteSoundOut (some (umiBroken 30)) (VolumeService.fresh 30)
        "alsa" true).1 = Response.halError ∧
      (VolumeService.muteSoundOut (some (umiBroken 30)) (VolumeService.fresh 30)
        "alsa" true).2.userMuteOf "alsa" = some false :=
  ⟨by decide,
    ((muteSoundOut_outcome (some (umiBroken 30)) (VolumeService.fresh 30) "alsa" false false
      (by decide)).1 rfl).2.1,
    (((muteSoundOut_outcome (some (umiBroken 30)) (VolumeService.fresh 30) "alsa" true false
      (by decide)).2 (by decide)).2.2 (by decide)).1,
    (((muteSoundOut_outcome (some (umiBroken 30)) (VolumeService.fresh 30) "alsa" true false
      (by decide)).2 (by decide)).2.2 (by decide)).2⟩

/-! ## The null HAL pointer -/

/-- For the handlers of the connection registry, a null HAL pointer gives the
same response and the same registry as a HAL client whose call fails. -/
theorem null_handle_as_failing_handle (u : umiClient) (s : AudioService)
    (hfail : ∀ c, u.reply s.halLog c ≠ UMI_ERROR.NONE) :
    (∀ a b, (AudioService.connect none s a b).1 = (AudioService.connect (some u) s a b).1 ∧
        (AudioService.connect none s a b).2.mConnections
          = (AudioService.connect (some u) s a b).2.mConnections) ∧
      (∀ a b, (AudioService.disconnect none s a b).1
          = (AudioService.disconnect (some u) s a b).1 ∧
        (AudioService.disconnect none s a b).2.mConnections
          = (AudioService.disconnect (some u) s a b).2.mConnections) ∧
      (∀ a b m, (AudioService.mute none s a b m).1 = (AudioService.mute (some u) s a b m).1 ∧
        (AudioService.mute none s a b m).2.mConnections
          = (AudioService.mute (some u) s a b m).2.mConnections) ∧
      (∀ o, (AudioService.setSoundOut none s o).1 = (AudioService.setSoundOut (some u) s o).1 ∧
        (AudioService.setSoundOut none s o).2.mConnections
          = (AudioService.setSoundOut (some u) s o).2.mConnections) := by
  refine ⟨?_, ?_, ?_, ?_⟩
  · intro a b
    by_cases hv : isValidSource a = true ∧ isValidSink b = true
    · rw [connect_valid none s a b hv.1 hv.2, connect_valid (some u) s a b hv.1 hv.2]
      simp only [umiClient.call, hfail, if_false, reduceCtorEq, and_self]
    · rw [connect_invalid none s a b hv, connect_invalid (some u) s a b hv]
      exact ⟨rfl, rfl⟩
  · intro a b
    refine ⟨?_, by rw [disconnect_mConnections, disconnect_mConnections]⟩
    unfold AudioService.disconnect
    cases findAudioConnection s.mConnections a b with
    | none => rfl
    | some i => simp only [doDisconnectAudio, umiClient.call, hfail, if_false, reduceCtorEq]
  · intro a b m
    unfold AudioService.mute
    cases findAudioConnection s.mConnections a b with
    | none => exact ⟨rfl, rfl⟩
    | some i =>
      have hd : doMuteAudio none s.halLog (connectionAt s.mConnections i) m =
            ((doMuteAudio (some u) s.halLog (connectionAt s.mConnections i) m).1,
              (doMuteAudio (some u) s.halLog (connectionAt s.mConnections i) m).2.1,
              s.halLog) := by
        unfold doMuteAudio
        split
        · rfl
        · simp only [umiClient.call, ne_eq, hfail, not_false_eq_true, if_true]
      simp only [hd]
      split <;> exact ⟨rfl, rfl⟩
  · intro o
    unfold AudioService.setSoundOut
    split
    · exact ⟨rfl, rfl⟩
    · simp only [umiClient.call, hfail, if_false, and_self]

/-- For the Amixer controller, a null HAL pointer gives the same result as a HAL
client whose call fails: the volume or mute change is reported as failed. -/
theorem null_handle_as_failing_handle_amixer (u : umiClient) (log : List HalCall)
    (c : IVolumeController) (hfail : ∀ call, u.reply log call ≠ UMI_ERROR.NONE) :
    (AmixerController.onVolumeChanged none log c).1
        = (AmixerController.onVolumeChanged (some u) log c).1 ∧
      (AmixerController.onMuteChanged none log c).1
        = (AmixerController.onMuteChanged (some u) log c).1 := by
  unfold AmixerController.onVolumeChanged AmixerController.onMuteChanged
  simp only [umiClient.call, ne_eq, hfail, not_false_eq_true, if_true, and_self]

/-- C13: the constructor of the Output Registry does not treat a null HAL
pointer like a failing HAL.  With a HAL client whose every call fails it builds
the registry with the client's default volume; with a null pointer it reads
`umiInstance->getDefaultVolume()` through the null pointer and yields no
registry at all. -/
theorem create_null_handle_diverges :
    VolumeService.create none [] = none ∧
      VolumeService.create (some (umiBroken 30)) [] = some (VolumeService.fresh 30) := by
  decide

/-! ## The resource sentinel -/

theorem drop_length_append (l1 l2 : List HalCall) : (l1 ++ l2).drop l1.length = l2 :=
  List.drop_left l1 l2

theorem connect_log (umi : Option umiClient) (s : AudioService) (a b : String)
    (hw : registryWellFormed s.mConnections) :
    ∃ l, (AudioService.connect umi s a b).2.halLog = s.halLog ++ l ∧
      ∀ c ∈ l, usesNoConnection c = false := by
  by_cases hv : isValidSource a = true ∧ isValidSink b = true
  · rw [connect_valid umi s a b hv.1 hv.2, connect_target_resource s a b hw]
    cases umi with
    | none =>
      refine ⟨[], ?_, by simp⟩
      simp
    | some u =>
      refine ⟨[HalCall.connectInput UMI_AUDIO_RESOURCE_T.MIXER0], ?_, ?_⟩
      · simp only [umiClient.call]
        split <;> rfl
      · intro c hc
        rw [List.mem_singleton] at hc
        subst hc
        rfl
  · rw [connect_invalid umi s a b hv]
    exact ⟨[], by simp, by simp⟩

theorem doDisconnectAudio_log (umi : Option umiClient) (log : List HalCall)
    (c : AudioConnection) (hid : c.audioResourceId = UMI_AUDIO_RESOURCE_T.MIXER0) :
    ∃ l, (doDisconnectAudio umi log c).2 = log ++ l ∧
      ∀ call ∈ l, usesNoConnection call = false := by
  unfold doDisconnectAudio
  cases umi with
  | none => exact ⟨[], by simp, by simp⟩
  | some u =>
    refine ⟨[HalCall.disconnectInput UMI_AUDIO_RESOURCE_T.MIXER0], ?_, ?_⟩
    · simp only [umiClient.call, hid]
    · intro call hc
      rw [List.mem_singleton] at hc
      subst hc
      rfl

theorem disconnect_log (umi : Option umiClient) (s : AudioService) (a b : String)
    (hw : registryWellFormed s.mConnections) :
    ∃ l, (AudioService.disconnect umi s a b).2.halLog = s.halLog ++ l ∧
      ∀ c ∈ l, usesNoConnection c = false := by
  unfold AudioService.disconnect
  cases hf : findAudioConnection s.mConnections a b with
  | none => exact ⟨[], by simp, by simp⟩
  | some i =>
    obtain ⟨l, hl, hn⟩ := doDisconnectAudio_log umi s.halLog (connectionAt s.mConnections i)
      (hw.2 _ (findAudioConnection_some_mem _ a b i hf))
    refine ⟨l, ?_, hn⟩
    simp only
    split <;> exact hl

theorem doMuteAudio_issued (umi : Option umiClient) (log : List HalCall)
    (c : AudioConnection) (m : Bool)
    (hid : c.audioResourceId = UMI_AUDIO_RESOURCE_T.MIXER0) :
    ∃ l, (doMuteAudio umi log c m).2.2 = log ++ l ∧
      ∀ call ∈ l, usesNoConnection call = false := by
  unfold doMuteAudio
  split
  · exact ⟨[], by simp, by simp⟩
  · cases umi with
    | none => exact ⟨[], by simp, by simp⟩
    | some u =>
      refine ⟨[HalCall.setMute UMI_AUDIO_RESOURCE_T.MIXER0 m], ?_, ?_⟩
      · simp only [umiClient.call, hid]
        split <;> rfl
      · intro call hc
        rw [List.mem_singleton] at hc
        subst hc
        rfl

theorem mute_log (umi : Option umiClient) (s : AudioService) (a b : String) (m : Bool)
    (hw : registryWellFormed s.mConnections) :
    ∃ l, (AudioService.mute umi s a b m).2.halLog = s.halLog ++ l ∧
      ∀ c ∈ l, usesNoConnection c = false := by
  unfold AudioService.mute
  cases hf : findAudioConnection s.mConnections a b with
  | none => exact ⟨[], by simp, by simp⟩
  | some i =>
    obtain ⟨l, hl, hn⟩ := doMuteAudio_issued umi s.halLog (connectionAt s.mConnections i) m
      (hw.2 _ (findAudioConnection_some_mem _ a b i hf))
    refine ⟨l, ?_, hn⟩
    simp only
    split <;> exact hl

theorem disconnectAll_log (umi : Option umiClient) (cs : List AudioConnection) :
    ∀ log : List HalCall,
      (∀ c ∈ cs, c.audioResourceId = UMI_AUDIO_RESOURCE_T.MIXER0) →
      ∃ l, disconnectAll umi log cs = log ++ l ∧
        ∀ call ∈ l, usesNoConnection call = false := by
  induction cs with
  | nil => intro log _; exact ⟨[], by simp [disconnectAll], by simp⟩
  | cons c rest ih =>
    intro log hid
    obtain ⟨l1, h1, n1⟩ := doDisconnectAudio_log umi log c (hid c (List.mem_cons_self _ _))
    obtain ⟨l2, h2, n2⟩ := ih (doDisconnectAudio umi log c).2
      (fun d hd => hid d (List.mem_cons_of_mem _ hd))
    refine ⟨l1 ++ l2, ?_, ?_⟩
    · rw [disconnectAll, h2, h1, List.append_assoc]
    · intro call hc
      rcases List.mem_append.1 hc with h | h
      · exact n1 call h
      · exact n2 call h

theorem callsIssued_of_append (s t : AudioService) (l : List HalCall)
    (h : t.halLog = s.halLog ++ l) : callsIssued s t = l := by
  unfold callsIssued
  rw [h]
  exact drop_length_append _ _

/-- C15: a source and sink that pass validation resolve to `MIXER0`, never to
the sentinel `NO_CONNECTION`; `connect` never answers with the
connection-not-possible error; every entry of a reachable registry carries
`MIXER0`; and no HAL connect-input, disconnect-input or mute call issued by
`connect`, `disconnect`, `mute` or the destructor from a reachable state carries
the sentinel. -/
theorem no_connection_sentinel_unused (umi : Option umiClient) :
    (∀ source sink, isValidSource source = true → isValidSink sink = true →
        getResourceId source sink = UMI_AUDIO_RESOURCE_T.MIXER0 ∧
        getResourceId source sink ≠ UMI_AUDIO_RESOURCE_T.NO_CONNECTION) ∧
      (∀ s source sink, (AudioService.connect umi s source sink).1 ≠
        Response.error ErrorText.errorConnectionNotPossible
          ErrorCode.API_ERROR_CONNECTION_NOT_POSSIBLE) ∧
      (∀ s, AudioService.Reachable umi s →
        (∀ c ∈ s.mConnections, c.audioResourceId = UMI_AUDIO_RESOURCE_T.MIXER0) ∧
        (∀ source sink, ∀ call ∈ callsIssued s (AudioService.connect umi s source sink).2,
          usesNoConnection call = false) ∧
        (∀ source sink, ∀ call ∈ callsIssued s (AudioService.disconnect umi s source sink).2,
          usesNoConnection call = false) ∧
        (∀ source sink flag,
          ∀ call ∈ callsIssued s (AudioService.mute umi s source sink flag).2,
            usesNoConnection call = false) ∧
        (∀ call ∈ callsIssued s (AudioService.teardown umi s),
          usesNoConnection call = false)) := by
  refine ⟨?_, ?_, ?_⟩
  · intro a b ha hb
    rw [getResourceId_valid a b ha hb]
    exact ⟨rfl, by decide⟩
  · intro s a b
    by_cases hv : isValidSource a = true ∧ isValidSink b = true
    · rw [connect_valid umi s a b hv.1 hv.2]
      split <;> simp [Response.halError]
    · rw [connect_invalid umi s a b hv]
      simp
  · intro s hreach
    have hw := reachable_wellFormed umi s hreach
    refine ⟨hw.2, ?_, ?_, ?_, ?_⟩
    · intro a b
      obtain ⟨l, hl, hn⟩ := connect_log umi s a b hw
      rw [callsIssued_of_append s _ l hl]
      exact hn
    · intro a b
      obtain ⟨l, hl, hn⟩ := disconnect_log umi s a b hw
      rw [callsIssued_of_append s _ l hl]
      exact hn
    · intro a b m
      obtain ⟨l, hl, hn⟩ := mute_log umi s a b m hw
      rw [callsIssued_of_append s _ l hl]
      exact hn
    · obtain ⟨l, hl, hn⟩ := disconnectAll_log umi s.mConnections s.halLog hw.2
      rw [callsIssued_of_append s (AudioService.teardown umi s) l hl]
      exact hn

/-- C15, at a concrete input: the registry that holds the connection AMIXER to
ALSA; its entry carries `MIXER0`, and the HAL call of a `mute(true)` request is
`setMute(MIXER0, true)`. -/
theorem no_connection_sentinel_unused_witness :
    AudioService.Reachable (some (umiReliable 0)) AudioService.connected ∧
      callsIssued AudioService.connected
        (AudioService.mute (some (umiReliable 0)) AudioService.connected
          "AMIXER" "ALSA" true).2 = [HalCall.setMute UMI_AUDIO_RESOURCE_T.MIXER0 true] ∧
      (∀ c ∈ AudioService.connected.mConnections,
        c.audioResourceId = UMI_AUDIO_RESOURCE_T.MIXER0) ∧
      (∀ call ∈ callsIssued AudioService.connected
          (AudioService.mute (some (umiReliable 0)) AudioService.connected
            "AMIXER" "ALSA" true).2,
        usesNoConnection call = false) :=
  have hr : AudioService.Reachable (some (umiReliable 0)) AudioService.connected :=
    (by decide : (AudioService.connect (some (umiReliable 0)) AudioService.start
        "AMIXER" "ALSA").2 = AudioService.connected) ▸
      AudioService.Reachable.connect "AMIXER" "ALSA" (AudioService.Reachable.empty [])
  ⟨hr, by decide,
    ((no_connection_sentinel_unused (some (umiReliable 0))).2.2
      AudioService.connected hr).1,
    ((no_connection_sentinel_unused (some (umiReliable 0))).2.2
      AudioService.connected hr).2.2.2.1 "AMIXER" "ALSA" true⟩

/-! ## Two mute calls in a row -/

theorem doMuteAudio_issues (u : umiClient) (log : List HalCall) (c : AudioConnection)
    (m : Bool) (hm : c.muted ≠ m) :
    (doMuteAudio (some u) log c m).2.2 = log ++ [HalCall.setMute c.audioResourceId m] := by
  unfold doMuteAudio
  rw [if_neg hm]
  simp only [umiClient.call]
  split <;> rfl

theorem doMuteAudio_fail (u : umiClient) (log : List HalCall) (c : AudioConnection)
    (m : Bool) (hm : c.muted ≠ m)
    (hu : u.reply log (HalCall.setMute c.audioResourceId m) ≠ UMI_ERROR.NONE) :
    doMuteAudio (some u) log c m =
      (false, c, log ++ [HalCall.setMute c.audioResourceId m]) := by
  unfold doMuteAudio
  rw [if_neg hm]
  simp only [umiClient.call, ne_eq, hu, not_false_eq_true, if_true]

theorem mute_null_state (s : AudioService) (a b : String) (m : Bool) :
    (AudioService.mute none s a b m).2 = s := by
  unfold AudioService.mute
  cases hf : findAudioConnection s.mConnections a b with
  | none => rfl
  | some i =>
    have hd : (doMuteAudio none s.halLog (connectionAt s.mConnections i) m).2
        = (connectionAt s.mConnections i, s.halLog) := by
      unfold doMuteAudio
      split <;> rfl
    simp only [hd, set_connectionAt]
    split <;> rfl

theorem mute_failed_first (u : umiClient) (s : AudioService) (a b : String) (m : Bool)
    (i : Nat) (hf : findAudioConnection s.mConnections a b = some i)
    (hm : (connectionAt s.mConnections i).muted ≠ m)
    (hu : u.reply s.halLog (HalCall.setMute (connectionAt s.mConnections i).audioResourceId m)
      ≠ UMI_ERROR.NONE) :
    AudioService.mute (some u) s a b m =
      (Response.halError,
        { mConnections := s.mConnections,
          halLog := s.halLog ++
            [HalCall.setMute (connectionAt s.mConnections i).audioResourceId m] }) := by
  unfold AudioService.mute
  rw [hf]
  simp only [doMuteAudio_fail u s.halLog _ m hm hu, Bool.not_false, if_true, set_connectionAt]

theorem mute_issues (u : umiClient) (s : AudioService) (a b : String) (m : Bool)
    (i : Nat) (hf : findAudioConnection s.mConnections a b = some i)
    (hm : (connectionAt s.mConnections i).muted ≠ m) :
    (AudioService.mute (some u) s a b m).2.halLog =
      s.halLog ++ [HalCall.setMute (connectionAt s.mConnections i).audioResourceId m] := by
  unfold AudioService.mute
  rw [hf]
  simp only
  split <;> exact doMuteAudio_issues u s.halLog _ m hm

/-- C5, amended: two `mute` calls in a row with the same source, sink and flag
issue at most one HAL `setMute` call in total, unless the first call issues a
HAL `setMute` call that fails.  In that case the first call answers with the HAL
error and leaves the registry, `muted` included, as it was, and the second call
issues the same `setMute` call again, so that exactly two HAL `setMute` calls
are issued in total. -/
theorem mute_twice_hal_calls (umi : Option umiClient) (s : AudioService)
    (source sink : String) (flag : Bool) :
    (¬ AudioService.firstSetMuteFails umi s source sink flag →
        AudioService.muteTwiceAtMostOneHalCall umi s source sink flag) ∧
      (∀ i u, findAudioConnection s.mConnections source sink = some i →
        (connectionAt s.mConnections i).muted ≠ flag → umi = some u →
        u.reply s.halLog (HalCall.setMute (connectionAt s.mConnections i).audioResourceId flag)
          ≠ UMI_ERROR.NONE →
        (AudioService.muteTwice umi s source sink flag).1 = Response.halError ∧
        (AudioService.mute umi s source sink flag).2.mConnections = s.mConnections ∧
        (connectionAt (AudioService.mute umi s source sink flag).2.mConnections i).muted
          = (connectionAt s.mConnections i).muted ∧
        (AudioService.muteTwice umi s source sink flag).2.2.halLog =
          s.halLog ++
            [HalCall.setMute (connectionAt s.mConnections i).audioResourceId flag,
              HalCall.setMute (connectionAt s.mConnections i).audioResourceId flag] ∧
        setMuteCalls (AudioService.muteTwice umi s source sink flag).2.2.halLog
          = setMuteCalls s.halLog + 2) := by
  constructor
  · intro hnot
    unfold AudioService.muteTwiceAtMostOneHalCall AudioService.muteTwice
    simp only
    cases umi with
    | none =>
      rw [mute_null_state, mute_null_state]
      omega
    | some u =>
      have hfirst : (AudioService.mute (some u) s source sink flag).1 ≠ Response.halError := by
        unfold AudioService.mute
        cases hf : findAudioConnection s.mConnections source sink with
        | none => simp [Response.halError]
        | some i =>
          simp only
          by_cases hm : (connectionAt s.mConnections i).muted = flag
          · rw [doMuteAudio_same_muted _ _ _ _ hm]
            simp [Response.halError]
          · have hu : u.reply s.halLog
                (HalCall.setMute (connectionAt s.mConnections i).audioResourceId flag)
                  = UMI_ERROR.NONE := by
              by_contra hne
              exact hnot ⟨i, u, hf, hm, rfl, hne⟩
            have hd : (doMuteAudio (some u) s.halLog (connectionAt s.mConnections i) flag).1
                = true := by
              unfold doMuteAudio
              rw [if_neg hm]
              simp only [umiClient.call, hu, ne_eq, not_true_eq_false, if_false]
            rw [hd]
            simp [Response.halError]
      rw [mute_second_silent (some u) s source sink flag hfirst]
      exact mute_log_le (some u) s source sink flag
  · intro i u hf hm hsome hu
    subst hsome
    have h1 := mute_failed_first u s source sink flag i hf hm hu
    unfold AudioService.muteTwice
    simp only
    rw [h1]
    refine ⟨rfl, rfl, rfl, ?_⟩
    have h2 := mute_issues u
      { mConnections := s.mConnections,
        halLog := s.halLog ++
          [HalCall.setMute (connectionAt s.mConnections i).audioResourceId flag] }
      source sink flag i hf hm
    simp only at h2
    rw [h2]
    constructor
    · simp
    · rw [setMuteCalls_append, setMuteCalls_append]

/-- C5 amended, at concrete inputs, on the unmuted connection AMIXER to ALSA:
with a null HAL pointer two `mute(true)` calls issue no HAL call; with a HAL
that fails every `setMute` the first call leaves `muted` false and both calls
issue `setMute(MIXER0, true)`. -/
theorem mute_twice_hal_calls_witness :
    AudioService.muteTwiceAtMostOneHalCall none AudioService.connected "AMIXER" "ALSA" true ∧
      findAudioConnection AudioService.connected.mConnections "AMIXER" "ALSA" = some 0 ∧
      (connectionAt AudioService.connected.mConnections 0).muted ≠ true ∧
      (connectionAt (AudioService.mute (some umiMuteBroken) AudioService.connected
        "AMIXER" "ALSA" true).2.mConnections 0).muted = false ∧
      (AudioService.muteTwice (some umiMuteBroken) AudioService.connected
        "AMIXER" "ALSA" true).2.2.halLog =
        AudioService.connected.halLog ++
          [HalCall.setMute UMI_AUDIO_RESOURCE_T.MIXER0 true,
            HalCall.setMute UMI_AUDIO_RESOURCE_T.MIXER0 true] :=
  ⟨(mute_twice_hal_calls none AudioService.connected "AMIXER" "ALSA" true).1
      (fun h => by
        obtain ⟨_, _, _, _, hu, _⟩ := h
        cases hu),
    by decide, by decide,
    ((mute_twice_hal_calls (some umiMuteBroken) AudioService.connected "AMIXER" "ALSA" true).2
      0 umiMuteBroken (by decide) (by decide) rfl (by decide)).2.2.1,
    ((mute_twice_hal_calls (some umiMuteBroken) AudioService.connected "AMIXER" "ALSA" true).2
      0 umiMuteBroken (by decide) (by decide) rfl (by decide)).2.2.2.1⟩

end AudioOutputService
